import Mathlib

/-!
# Fixed-effects sound mixer of the Caprice32 libretro port (`libretro/retro_snd.c`)

A shallow embedding of the clip store, the WAV loader, the command interface and
the two mixing paths, followed by the properties proved about them.

Conventions of the embedding

* `unsigned int` fields are natural numbers and every C operation on them
  reduces modulo `2^32` explicitly (`UINT_MOD`); `int` values are integers.
* `int16_t` samples are integers in `[-32768, 32767]`; a store into an `int16_t`
  goes through `wrap16`.
* memory blocks (`rawsamples`, the WAV buffer) are lists of bytes; the emulator's
  stereo buffer is a list of 16-bit samples, interleaved left/right.
* the globals `sounds`, `snd_buffer` (its contents) and `snd_buffer_size` are
  passed explicitly and returned when written.
* the mixers read sample data through `load_s16`, which is total: bytes past the
  end of a block read as `0`; an access to `sounds[n]` outside the array and a
  `memcpy` that leaves its source or destination block are faults (`none`).
* the build flag `MSB_FIRST` is the parameter `msb_first`.
* a sequence of calls of the interface is a list of `snd_call`, run by `run_session`;
  a state is reachable when the run completes without fault.
-/

namespace RetroSnd

/-! ## Constants and types of `retro_snd.h` -/

/-- Modelled from the spec: the macro `AUDIO_BYTES` is declared in a header that is
not among the sources; the spec gives two bytes per sample. -/
def AUDIO_BYTES : Nat := 2

/-- Modelled from the spec: the macro `AUDIO_CHANNELS` is declared in a header that
is not among the sources; the spec gives two output channels. -/
def AUDIO_CHANNELS : Nat := 2

/-- Modelled from the spec: the enumeration of effect slots is declared in a header
that is not among the sources; the source names three slots (motor, read, seek)
below the terminator `SND_LAST`. -/
def SND_LAST : Nat := 3

/-- Modelled from the spec: the slot identifier `SND_FDCMOTOR` is declared in a header
that is not among the sources; the three slots are numbered in the order in which the
source loads and releases them. -/
def SND_FDCMOTOR : Nat := 0

/-- Modelled from the spec: the slot identifier `SND_FDCREAD`, see `SND_FDCMOTOR`. -/
def SND_FDCREAD : Nat := 1

/-- Modelled from the spec: the slot identifier `SND_FDCSEEK`, see `SND_FDCMOTOR`. -/
def SND_FDCSEEK : Nat := 2

/-- Modelled from the spec: the enumeration `audio_status_t` is declared in a header
that is not among the sources; the source names `ST_OFF` and `ST_ON` (one-shot) and
the spec adds the looped state. -/
inductive audio_status_t where
  | ST_OFF
  | ST_ON
  | ST_LOOP
deriving DecidableEq, Repr

open audio_status_t

/-- The modulus of `unsigned int` arithmetic. -/
def UINT_MOD : Nat := 4294967296

/-- Conversion of an `int` to `unsigned int`. -/
def to_unsigned (x : Int) : Nat := (x % 4294967296).toNat

/-- Conversion of an `int` result to `int16_t` (two's complement wrap-around). -/
def wrap16 (x : Int) : Int := (x + 32768) % 65536 - 32768

/-! ## Reading scalars out of byte blocks (native byte order) -/

/-- The byte at index `i` of a block. -/
def byte_at (mem : List Nat) (i : Nat) : Nat := mem.getD i 0 % 256

/-- A `uint16_t` read at byte offset `off`; `msb_first` is the build flag `MSB_FIRST`. -/
def load_u16 (msb_first : Bool) (mem : List Nat) (off : Nat) : Nat :=
  if msb_first then 256 * byte_at mem off + byte_at mem (off + 1)
  else byte_at mem off + 256 * byte_at mem (off + 1)

/-- A `uint32_t` read at byte offset `off`. -/
def load_u32 (msb_first : Bool) (mem : List Nat) (off : Nat) : Nat :=
  if msb_first then 65536 * load_u16 msb_first mem off + load_u16 msb_first mem (off + 2)
  else load_u16 msb_first mem off + 65536 * load_u16 msb_first mem (off + 2)

/-- An `int16_t` read at byte offset `off`. -/
def load_s16 (msb_first : Bool) (mem : List Nat) (off : Nat) : Int :=
  if load_u16 msb_first mem off ≥ 32768 then (load_u16 msb_first mem off : Int) - 65536
  else (load_u16 msb_first mem off : Int)

/-- Four characters read at byte offset `off`. -/
def load_tag (mem : List Nat) (off : Nat) : List Nat :=
  [byte_at mem off, byte_at mem (off + 1), byte_at mem (off + 2), byte_at mem (off + 3)]

/-! ## The data model -/

/-- The 44-byte header `WAVhead`. -/
structure WAVhead where
  ChunkID : List Nat
  ChunkSize : Nat
  Format : List Nat
  Subchunk1ID : List Nat
  Subchunk1Size : Nat
  AudioFormat : Nat
  NumChannels : Nat
  SampleRate : Nat
  ByteRate : Nat
  BlockAlign : Nat
  BitsPerSample : Nat
  Subchunk2ID : List Nat
  Subchunk2Size : Nat
deriving DecidableEq, Repr

/-- The header as `memcpy(&snd->head, buffer, 44)` lays it over the struct. -/
def WAVhead_of_bytes (msb_first : Bool) (buffer : List Nat) : WAVhead where
  ChunkID := load_tag buffer 0
  ChunkSize := load_u32 msb_first buffer 4
  Format := load_tag buffer 8
  Subchunk1ID := load_tag buffer 12
  Subchunk1Size := load_u32 msb_first buffer 16
  AudioFormat := load_u16 msb_first buffer 20
  NumChannels := load_u16 msb_first buffer 22
  SampleRate := load_u32 msb_first buffer 24
  ByteRate := load_u32 msb_first buffer 28
  BlockAlign := load_u16 msb_first buffer 32
  BitsPerSample := load_u16 msb_first buffer 34
  Subchunk2ID := load_tag buffer 36
  Subchunk2Size := load_u32 msb_first buffer 40

/-- One clip, `retro_guisnd_t`. `rawsamples` is `none` for the null pointer and
otherwise the bytes of the allocated block. -/
structure retro_guisnd_t where
  head : WAVhead
  rawsamples : Option (List Nat)
  sample_pos : Nat
  samples_tot : Nat
  sample_rate : Nat
  bytes_per_sample : Nat
  state : audio_status_t
  ready_to_play : Bool
deriving DecidableEq, Repr

/-- The bytes reachable through `snd->rawsamples`. -/
def raw_bytes (snd : retro_guisnd_t) : List Nat := snd.rawsamples.getD []

/-- The sample of index `i` of a clip, as the mixers read it. -/
def sample_at (msb_first : Bool) (snd : retro_guisnd_t) (i : Nat) : Int :=
  load_s16 msb_first (raw_bytes snd) (AUDIO_BYTES * i)

/-! ## Loading and releasing a clip -/

/-- The function `sound_free`. -/
def sound_free (snd : retro_guisnd_t) : retro_guisnd_t :=
  { snd with
    ready_to_play := false
    rawsamples := none
    samples_tot := 0
    sample_pos := 0
    state := ST_OFF }

/-- The library call `memcpy(dst, src + off, n)` on blocks: the first `n` bytes of
`dst` are replaced; the call faults when it would leave either block. -/
def memcpy (dst src : List Nat) (off : Nat) (n : Int) : Option (List Nat) :=
  if 0 ≤ n ∧ n.toNat ≤ dst.length ∧ off + n.toNat ≤ src.length then
    some ((src.drop off).take n.toNat ++ dst.drop n.toNat)
  else none

/-- The function `sound_load`. `malloc` gives, for a byte count, the fresh block with
its indeterminate contents, or `none` when the allocation fails. The result is `none`
when one of the two `memcpy` calls faults, and otherwise the returned flag with the
clip as the call leaves it. -/
def sound_load (msb_first : Bool) (malloc : Nat → Option (List Nat))
    (snd : retro_guisnd_t) (buffer : List Nat) (buffer_size : Int) :
    Option (Bool × retro_guisnd_t) :=
  if buffer.length < 44 then none
  else
    let snd1 := { snd with head := WAVhead_of_bytes msb_first buffer }
    if snd1.head.NumChannels ≠ 1 ∨ snd1.head.BitsPerSample ≠ 16 then
      some (false, snd1)
    else
      let snd2 := { snd1 with samples_tot := snd1.head.Subchunk2Size / AUDIO_BYTES }
      match malloc snd2.head.Subchunk2Size with
      | none => some (false, { snd2 with rawsamples := none })
      | some block =>
        match memcpy block buffer 44 (buffer_size - 44) with
        | none => none
        | some bytes =>
          some (true, { snd2 with
            rawsamples := some bytes
            state := ST_OFF
            sample_pos := 0
            ready_to_play := true })

/-- A slot as `memset(sounds, 0, sizeof(sounds))` leaves it: every field zero. -/
def idle_clip : retro_guisnd_t where
  head := ⟨[0, 0, 0, 0], 0, [0, 0, 0, 0], [0, 0, 0, 0], 0, 0, 0, 0, 0, 0, 0, [0, 0, 0, 0], 0⟩
  rawsamples := none
  sample_pos := 0
  samples_tot := 0
  sample_rate := 0
  bytes_per_sample := 0
  state := ST_OFF
  ready_to_play := false

/-- The globals of the unit: the array `sounds`, the batch width `snd_buffer_size` and
whether the pointer `snd_buffer` is set (the samples behind it are passed to the batch
mixer at each call). -/
structure snd_globals where
  sounds : List retro_guisnd_t
  snd_buffer_size : Int
  snd_buffer_set : Bool
deriving DecidableEq, Repr

/-- The embedded assets, which come from headers that are not among the sources: the
three byte arrays and the sizes declared with them. -/
structure snd_assets where
  motor : List Nat
  motor_size : Int
  read_drive : List Nat
  read_size : Int
  seek_drive : List Nat
  seek_size : Int

/-- The call `sound_load(&sounds[slot], buffer, buffer_size)` on the store. -/
def load_slot (msb_first : Bool) (malloc : Nat → Option (List Nat))
    (sounds : List retro_guisnd_t) (slot : Nat) (buffer : List Nat) (buffer_size : Int) :
    Option (Bool × List retro_guisnd_t) :=
  match sounds.get? slot with
  | none => none
  | some snd =>
    match sound_load msb_first malloc snd buffer buffer_size with
    | none => none
    | some res => some (res.1, sounds.set slot res.2)

/-- The function `init_retro_snd`; `none` when a load faults, and otherwise the
returned flag with the globals as the call leaves them. `malloc n` is the allocator as
it answers the load into slot `n`. -/
def init_retro_snd (msb_first : Bool) (malloc : Nat → Nat → Option (List Nat))
    (assets : snd_assets) (g : snd_globals) (audio_buffer_size : Int) :
    Option (Bool × snd_globals) :=
  match load_slot msb_first (malloc SND_FDCMOTOR) (List.replicate SND_LAST idle_clip)
      SND_FDCMOTOR assets.motor assets.motor_size with
  | none => none
  | some (false, sounds1) => some (false, { g with sounds := sounds1 })
  | some (true, sounds1) =>
    match load_slot msb_first (malloc SND_FDCREAD) sounds1 SND_FDCREAD assets.read_drive
        assets.read_size with
    | none => none
    | some (false, sounds2) => some (false, { g with sounds := sounds2 })
    | some (true, sounds2) =>
      match load_slot msb_first (malloc SND_FDCSEEK) sounds2 SND_FDCSEEK assets.seek_drive
          assets.seek_size with
      | none => none
      | some (false, sounds3) => some (false, { g with sounds := sounds3 })
      | some (true, sounds3) =>
        some (true,
          { sounds := sounds3
            snd_buffer_size := (audio_buffer_size.tdiv AUDIO_BYTES).tdiv AUDIO_CHANNELS
            snd_buffer_set := true })

/-- The call `sound_free(&sounds[slot])` on the store. -/
def free_slot (sounds : List retro_guisnd_t) (slot : Nat) : List retro_guisnd_t :=
  match sounds.get? slot with
  | none => sounds
  | some snd => sounds.set slot (sound_free snd)

/-- The function `free_retro_snd`. -/
def free_retro_snd (g : snd_globals) : snd_globals where
  sounds := free_slot (free_slot (free_slot g.sounds SND_FDCMOTOR) SND_FDCREAD) SND_FDCSEEK
  snd_buffer_size := 0
  snd_buffer_set := false

/-! ## Playback -/

/-- The function `sound_stop`. -/
def sound_stop (snd : retro_guisnd_t) : retro_guisnd_t :=
  { snd with sample_pos := 0, state := ST_OFF }

/-- The loop `while (i--)` of `mix_audio_batch`: `i` frames are left, `src` is the byte
offset of `rawsamples16` in the clip's block and `dst` the index of `samples` in the
stereo buffer. The read `*rawsamples16` is the total `load_s16`, which yields 0 for a
byte outside the block, whereas the C loop dereferences the pointer there and adds
whatever lies behind the block: the values of this function describe the C program
only where every offset of `mix_loop_reads` lies inside the block. -/
def mix_loop (msb_first : Bool) (raw : List Nat) :
    Nat → Nat → Nat → List Int → List Int
  | 0, _, _, samples => samples
  | i + 1, src, dst, samples =>
    let samples1 :=
      samples.set dst (wrap16 (samples.getD dst 0 + load_s16 msb_first raw src))
    let samples2 :=
      samples1.set (dst + 1) (wrap16 (samples1.getD (dst + 1) 0 + load_s16 msb_first raw src))
    mix_loop msb_first raw i (src + 2) (dst + 2) samples2

/-- The statements of `mix_audio_batch` after the end-of-buffer test: the loop over the
frames and the advance of the cursor. -/
def mix_audio_batch_frames (msb_first : Bool) (snd_buffer_size : Int)
    (snd_buffer : List Int) (snd : retro_guisnd_t) : retro_guisnd_t × List Int :=
  ({ snd with sample_pos := (snd.sample_pos + to_unsigned snd_buffer_size) % UINT_MOD },
    mix_loop msb_first (raw_bytes snd) (to_unsigned snd_buffer_size)
      ((AUDIO_BYTES * snd.sample_pos) % UINT_MOD) 0 snd_buffer)

/-- The function `mix_audio_batch`, on the globals `snd_buffer_size` and the contents
of `snd_buffer`. -/
def mix_audio_batch (msb_first : Bool) (snd_buffer_size : Int) (snd_buffer : List Int)
    (snd : retro_guisnd_t) : retro_guisnd_t × List Int :=
  if (snd.sample_pos + to_unsigned snd_buffer_size) % UINT_MOD > snd.samples_tot then
    if snd.state = ST_ON then (sound_stop snd, snd_buffer)
    else
      mix_audio_batch_frames msb_first snd_buffer_size snd_buffer { snd with sample_pos := 0 }
  else mix_audio_batch_frames msb_first snd_buffer_size snd_buffer snd

/-- The function `retro_snd_mixer_batch`: the loop over `n < SND_LAST`. -/
def retro_snd_mixer_batch (msb_first : Bool) (snd_buffer_size : Int)
    (sounds : List retro_guisnd_t) (snd_buffer : List Int) :
    List retro_guisnd_t × List Int :=
  (List.range SND_LAST).foldl
    (fun st n =>
      match st.1.get? n with
      | some snd =>
        if snd.state ≠ ST_OFF then
          ((st.1.set n (mix_audio_batch msb_first snd_buffer_size st.2 snd).1),
            (mix_audio_batch msb_first snd_buffer_size st.2 snd).2)
        else st
      | none => st)
    (sounds, snd_buffer)

/-- The array element `sounds[n]` for an `int` index; `none` outside the array. -/
def sounds_at (sounds : List retro_guisnd_t) (n : Int) : Option retro_guisnd_t :=
  if 0 ≤ n then sounds.get? n.toNat else none

/-- The function `retro_snd_cmd`; `none` when `sounds[snd_type]` is evaluated outside
the array. -/
def retro_snd_cmd (sounds : List retro_guisnd_t) (snd_type : Int)
    (new_status : audio_status_t) : Option (List retro_guisnd_t) :=
  if snd_type ≥ (SND_LAST : Int) then some sounds
  else
    match sounds_at sounds snd_type with
    | none => none
    | some snd =>
      if !snd.ready_to_play then some sounds
      else
        let snd1 := { snd with state := new_status }
        some (sounds.set snd_type.toNat
          (if new_status = ST_OFF then { snd1 with sample_pos := 0 } else snd1))

/-- The statements of `mix_audio_sample` after the end-of-buffer test: one source
sample is added to `*left` and `*right` and the cursor moves on by one. As in
`mix_loop` the read is the total `load_s16`, so the two values describe the C program
only where the offset of `mix_audio_sample_reads` lies inside the block. -/
def mix_audio_sample_frame (msb_first : Bool) (snd : retro_guisnd_t) (left right : Int) :
    retro_guisnd_t × Int × Int :=
  ({ snd with sample_pos := (snd.sample_pos + 1) % UINT_MOD },
    wrap16 (left +
      load_s16 msb_first (raw_bytes snd) ((AUDIO_BYTES * snd.sample_pos) % UINT_MOD)),
    wrap16 (right +
      load_s16 msb_first (raw_bytes snd) ((AUDIO_BYTES * snd.sample_pos) % UINT_MOD)))

/-- The function `mix_audio_sample`, on the global `snd_buffer_size`; `left` and
`right` are the values behind the two pointers. -/
def mix_audio_sample (msb_first : Bool) (snd_buffer_size : Int) (snd : retro_guisnd_t)
    (left right : Int) : retro_guisnd_t × Int × Int :=
  if (snd.sample_pos + to_unsigned snd_buffer_size) % UINT_MOD > snd.samples_tot then
    if snd.state = ST_ON then (sound_stop snd, left, right)
    else mix_audio_sample_frame msb_first { snd with sample_pos := 0 } left right
  else mix_audio_sample_frame msb_first snd left right

/-- The function `retro_snd_mixer_sample`: the loop over `n < SND_LAST`. -/
def retro_snd_mixer_sample (msb_first : Bool) (snd_buffer_size : Int)
    (sounds : List retro_guisnd_t) (left right : Int) :
    List retro_guisnd_t × Int × Int :=
  (List.range SND_LAST).foldl
    (fun st n =>
      match st.1.get? n with
      | some snd =>
        if snd.state ≠ ST_OFF then
          ((st.1.set n (mix_audio_sample msb_first snd_buffer_size snd st.2.1 st.2.2).1),
            (mix_audio_sample msb_first snd_buffer_size snd st.2.1 st.2.2).2)
        else st
      | none => st)
    (sounds, left, right)

/-! ## Derived forms of the loops and vocabulary of the statements -/

/-- The mixing loop of `retro_snd_mixer_batch` by recursion over the clips of the
store; equal to the loop over `n < SND_LAST` on a store of `SND_LAST` clips
(`retro_snd_mixer_batch_eq_list`). -/
def mixer_batch_list (msb_first : Bool) (snd_buffer_size : Int) :
    List retro_guisnd_t → List Int → List retro_guisnd_t × List Int
  | [], snd_buffer => ([], snd_buffer)
  | snd :: rest, snd_buffer =>
    if snd.state ≠ ST_OFF then
      ((mix_audio_batch msb_first snd_buffer_size snd_buffer snd).1 ::
          (mixer_batch_list msb_first snd_buffer_size rest
            (mix_audio_batch msb_first snd_buffer_size snd_buffer snd).2).1,
        (mixer_batch_list msb_first snd_buffer_size rest
          (mix_audio_batch msb_first snd_buffer_size snd_buffer snd).2).2)
    else
      (snd :: (mixer_batch_list msb_first snd_buffer_size rest snd_buffer).1,
        (mixer_batch_list msb_first snd_buffer_size rest snd_buffer).2)

/-- The mixing loop of `retro_snd_mixer_sample` by recursion over the clips of the
store; equal to the loop over `n < SND_LAST` on a store of `SND_LAST` clips
(`retro_snd_mixer_sample_eq_list`). -/
def mixer_sample_list (msb_first : Bool) (snd_buffer_size : Int) :
    List retro_guisnd_t → Int → Int → List retro_guisnd_t × Int × Int
  | [], left, right => ([], left, right)
  | snd :: rest, left, right =>
    if snd.state ≠ ST_OFF then
      ((mix_audio_sample msb_first snd_buffer_size snd left right).1 ::
          (mixer_sample_list msb_first snd_buffer_size rest
            (mix_audio_sample msb_first snd_buffer_size snd left right).2.1
            (mix_audio_sample msb_first snd_buffer_size snd left right).2.2).1,
        (mixer_sample_list msb_first snd_buffer_size rest
          (mix_audio_sample msb_first snd_buffer_size snd left right).2.1
          (mix_audio_sample msb_first snd_buffer_size snd left right).2.2).2)
    else
      (snd :: (mixer_sample_list msb_first snd_buffer_size rest left right).1,
        (mixer_sample_list msb_first snd_buffer_size rest left right).2)

/-- Specification side: the source sample of index `j` of a clip. A clip has the
samples of index below `samples_tot`, and the sample is there when both of its bytes
lie in the clip's block. -/
def clip_sample (msb_first : Bool) (snd : retro_guisnd_t) (j : Nat) : Option Int :=
  if j < snd.samples_tot ∧ AUDIO_BYTES * j + 1 < (raw_bytes snd).length then
    some (sample_at msb_first snd j)
  else none

/-- Specification side: a batch tick of width `W` mixes the clip when the clip is
active and the end-of-buffer check does not stop it. -/
def batch_mixed (W : Nat) (snd : retro_guisnd_t) : Prop :=
  snd.state ≠ ST_OFF ∧ ¬ (snd.state = ST_ON ∧ snd.sample_pos + W > snd.samples_tot)

instance (W : Nat) (snd : retro_guisnd_t) : Decidable (batch_mixed W snd) := by
  unfold batch_mixed; infer_instance

/-- Specification side: the cursor a tick of width `W` mixes from, `0` after a
rewind. -/
def batch_start (W : Nat) (snd : retro_guisnd_t) : Nat :=
  if snd.sample_pos + W > snd.samples_tot then 0 else snd.sample_pos

/-- Specification side: what a clip adds to both samples of frame `i` in a batch tick
of width `W`. -/
def batch_share (msb_first : Bool) (W : Nat) (i : Nat) (snd : retro_guisnd_t) : Int :=
  if batch_mixed W snd then sample_at msb_first snd (batch_start W snd + i) else 0

/-- The body of the loop of `retro_snd_mixer_batch` for one slot: the clip and the
stereo buffer before and after. -/
def batch_tick (msb_first : Bool) (snd_buffer_size : Int)
    (st : retro_guisnd_t × List Int) : retro_guisnd_t × List Int :=
  if st.1.state ≠ ST_OFF then mix_audio_batch msb_first snd_buffer_size st.2 st.1 else st

/-- The body of the loop of `retro_snd_mixer_sample` for one slot. -/
def sample_tick (msb_first : Bool) (snd_buffer_size : Int)
    (st : retro_guisnd_t × Int × Int) : retro_guisnd_t × Int × Int :=
  if st.1.state ≠ ST_OFF then mix_audio_sample msb_first snd_buffer_size st.1 st.2.1 st.2.2
  else st

/-- The store and the stereo buffer after `k` successive calls of
`retro_snd_mixer_batch`, nothing else touching either in between. -/
def batch_calls (msb_first : Bool) (snd_buffer_size : Int) :
    Nat → List retro_guisnd_t × List Int → List retro_guisnd_t × List Int
  | 0, st => st
  | k + 1, st =>
    retro_snd_mixer_batch msb_first snd_buffer_size
      (batch_calls msb_first snd_buffer_size k st).1
      (batch_calls msb_first snd_buffer_size k st).2

/-- The store and the left/right pair after `k` successive calls of
`retro_snd_mixer_sample`, nothing else touching either in between. -/
def sample_calls (msb_first : Bool) (snd_buffer_size : Int) :
    Nat → List retro_guisnd_t × Int × Int → List retro_guisnd_t × Int × Int
  | 0, st => st
  | k + 1, st =>
    retro_snd_mixer_sample msb_first snd_buffer_size
      (sample_calls msb_first snd_buffer_size k st).1
      (sample_calls msb_first snd_buffer_size k st).2.1
      (sample_calls msb_first snd_buffer_size k st).2.2

/-- One call of a mixer, with what the host's buffers hold when it is made. -/
inductive mixer_call where
  | batch (snd_buffer : List Int)
  | sample (left right : Int)

/-- Whether a call is a call of `retro_snd_mixer_batch`. -/
def mixer_call.is_batch : mixer_call → Bool
  | .batch _ => true
  | .sample _ _ => false

/-- The store after one mixer call. -/
def run_call (msb_first : Bool) (snd_buffer_size : Int) (sounds : List retro_guisnd_t) :
    mixer_call → List retro_guisnd_t
  | .batch snd_buffer => (retro_snd_mixer_batch msb_first snd_buffer_size sounds snd_buffer).1
  | .sample left right =>
    (retro_snd_mixer_sample msb_first snd_buffer_size sounds left right).1

/-- The store after a sequence of mixer calls, no command in between. -/
def run_calls (msb_first : Bool) (snd_buffer_size : Int) (sounds : List retro_guisnd_t)
    (calls : List mixer_call) : List retro_guisnd_t :=
  calls.foldl (run_call msb_first snd_buffer_size) sounds

/-- Specification side: the cursor of a looped clip of `N` samples after one mixer
call (`true` for a batch call, `false` for a single-sample call), from the cursor
before and the batch width. -/
def looped_cursor_step (snd_buffer_size : Int) (N : Nat) (pos : Nat) (batch : Bool) : Nat :=
  ((if (pos + to_unsigned snd_buffer_size) % UINT_MOD > N then 0 else pos) +
    (if batch then to_unsigned snd_buffer_size else 1)) % UINT_MOD

/-- Specification side: the cursor of a looped clip of `N` samples after a sequence of
mixer calls. -/
def looped_cursor (snd_buffer_size : Int) (N : Nat) (pos : Nat) (calls : List Bool) : Nat :=
  calls.foldl (looped_cursor_step snd_buffer_size N) pos

/-- The globals of a process that has not called the unit yet: static storage is
zero-initialized. -/
def fresh_globals : snd_globals where
  sounds := List.replicate SND_LAST idle_clip
  snd_buffer_size := 0
  snd_buffer_set := false

/-- One call of the unit's interface, with its arguments; for the mixers, what the
host's buffers hold when the call is made. -/
inductive snd_call where
  | init (malloc : Nat → Nat → Option (List Nat)) (assets : snd_assets)
      (audio_buffer_size : Int)
  | free
  | cmd (snd_type : Int) (new_status : audio_status_t)
  | batch (snd_buffer : List Int)
  | sample (left right : Int)

/-- Whether a call is one of the playback operations `retro_snd_cmd`,
`retro_snd_mixer_batch`, `retro_snd_mixer_sample`. -/
def snd_call.is_playback : snd_call → Bool
  | .init _ _ _ => false
  | .free => false
  | .cmd _ _ => true
  | .batch _ => true
  | .sample _ _ => true

/-- The globals after one call; `none` when the call faults. -/
def snd_call.run (msb_first : Bool) (g : snd_globals) : snd_call → Option snd_globals
  | .init malloc assets audio_buffer_size =>
    (init_retro_snd msb_first malloc assets g audio_buffer_size).map Prod.snd
  | .free => some (free_retro_snd g)
  | .cmd snd_type new_status =>
    (retro_snd_cmd g.sounds snd_type new_status).map fun sounds1 => { g with sounds := sounds1 }
  | .batch snd_buffer =>
    some { g with
      sounds := (retro_snd_mixer_batch msb_first g.snd_buffer_size g.sounds snd_buffer).1 }
  | .sample left right =>
    some { g with
      sounds := (retro_snd_mixer_sample msb_first g.snd_buffer_size g.sounds left right).1 }

/-- The globals after a sequence of calls; `none` when one of them faults. -/
def run_session (msb_first : Bool) : snd_globals → List snd_call → Option snd_globals
  | g, [] => some g
  | g, c :: cs =>
    match c.run msb_first g with
    | none => none
    | some g1 => run_session msb_first g1 cs

/-- The data of a clip that a load fixes: everything but `state` and `sample_pos`. -/
def clip_data (snd : retro_guisnd_t) :
    WAVhead × Option (List Nat) × Nat × Nat × Nat × Bool :=
  (snd.head, snd.rawsamples, snd.samples_tot, snd.sample_rate, snd.bytes_per_sample,
    snd.ready_to_play)

/-- The byte offsets at which the loop of `mix_audio_batch` dereferences
`rawsamples16`: `i` frames are left and `src` is the current offset. -/
def mix_loop_reads : Nat → Nat → List Nat
  | 0, _ => []
  | i + 1, src => src :: mix_loop_reads i (src + 2)

/-- The byte offsets in the clip's block at which `mix_audio_batch` reads a sample
(`mix_audio_batch_reads_complete`). -/
def mix_audio_batch_reads (snd_buffer_size : Int) (snd : retro_guisnd_t) : List Nat :=
  if (snd.sample_pos + to_unsigned snd_buffer_size) % UINT_MOD > snd.samples_tot then
    if snd.state = ST_ON then []
    else mix_loop_reads (to_unsigned snd_buffer_size) ((AUDIO_BYTES * 0) % UINT_MOD)
  else mix_loop_reads (to_unsigned snd_buffer_size) ((AUDIO_BYTES * snd.sample_pos) % UINT_MOD)

/-- The byte offsets in the clip's block at which `mix_audio_sample` reads a sample
(`mix_audio_sample_reads_complete`). -/
def mix_audio_sample_reads (snd_buffer_size : Int) (snd : retro_guisnd_t) : List Nat :=
  if (snd.sample_pos + to_unsigned snd_buffer_size) % UINT_MOD > snd.samples_tot then
    if snd.state = ST_ON then [] else [(AUDIO_BYTES * 0) % UINT_MOD]
  else [(AUDIO_BYTES * snd.sample_pos) % UINT_MOD]

/-! ## The clip of the spec's scenarios -/

/-- The header of a mono 16-bit clip with six bytes of samples. -/
def demo_head : WAVhead where
  ChunkID := [82, 73, 70, 70]
  ChunkSize := 42
  Format := [87, 65, 86, 69]
  Subchunk1ID := [102, 109, 116, 32]
  Subchunk1Size := 16
  AudioFormat := 1
  NumChannels := 1
  SampleRate := 44100
  ByteRate := 88200
  BlockAlign := 2
  BitsPerSample := 16
  Subchunk2ID := [100, 97, 116, 97]
  Subchunk2Size := 6

/-- A loaded clip holding the samples 10, 20, 30 (least significant byte first), in
state `st` with its cursor at `pos`. -/
def demo_clip (st : audio_status_t) (pos : Nat) : retro_guisnd_t where
  head := demo_head
  rawsamples := some [10, 0, 20, 0, 30, 0]
  sample_pos := pos
  samples_tot := 3
  sample_rate := 0
  bytes_per_sample := 0
  state := st
  ready_to_play := true

/-- A loaded clip holding the single sample 10 (least significant byte first), in
state `st` with its cursor at `pos`. -/
def short_clip (st : audio_status_t) (pos : Nat) : retro_guisnd_t where
  head := { demo_head with ChunkSize := 38, Subchunk2Size := 2 }
  rawsamples := some [10, 0]
  sample_pos := pos
  samples_tot := 1
  sample_rate := 0
  bytes_per_sample := 0
  state := st
  ready_to_play := true

/-- A WAV buffer (least significant byte first) of one channel of 16 bits with the
samples 10, 20, 30; `sound_load` turns it into `demo_clip ST_OFF 0`. -/
def mono_wav : List Nat :=
  [82, 73, 70, 70, 42, 0, 0, 0, 87, 65, 86, 69, 102, 109, 116, 32, 16, 0, 0, 0, 1, 0, 1, 0,
    68, 172, 0, 0, 136, 88, 1, 0, 2, 0, 16, 0, 100, 97, 116, 97, 6, 0, 0, 0,
    10, 0, 20, 0, 30, 0]

/-- A 44-byte WAV header (least significant byte first) announcing two channels of
16 bits and an empty data chunk. -/
def stereo_wav : List Nat :=
  [82, 73, 70, 70, 36, 0, 0, 0, 87, 65, 86, 69, 102, 109, 116, 32, 16, 0, 0, 0, 1, 0, 2, 0,
    68, 172, 0, 0, 16, 177, 2, 0, 4, 0, 16, 0, 100, 97, 116, 97, 0, 0, 0, 0]

/-- An allocator that always succeeds and hands out zeroed blocks. -/
def malloc_zeroed (n : Nat) : Option (List Nat) := some (List.replicate n 0)

/-- A WAV buffer of 50 bytes (least significant byte first) of one channel of 16 bits
whose header declares a data chunk of 2 bytes, followed by 6 bytes of samples. -/
def overlong_wav : List Nat :=
  [82, 73, 70, 70, 42, 0, 0, 0, 87, 65, 86, 69, 102, 109, 116, 32, 16, 0, 0, 0, 1, 0, 1, 0,
    68, 172, 0, 0, 136, 88, 1, 0, 2, 0, 16, 0, 100, 97, 116, 97, 2, 0, 0, 0,
    10, 0, 20, 0, 30, 0]

/-- A WAV buffer of 46 bytes (least significant byte first) of one channel of 16 bits
whose header declares a data chunk of 6 bytes, followed by 2 bytes of samples. -/
def truncated_wav : List Nat :=
  [82, 73, 70, 70, 42, 0, 0, 0, 87, 65, 86, 69, 102, 109, 116, 32, 16, 0, 0, 0, 1, 0, 1, 0,
    68, 172, 0, 0, 136, 88, 1, 0, 2, 0, 16, 0, 100, 97, 116, 97, 6, 0, 0, 0,
    10, 0]

/-- An allocator that always succeeds and hands out blocks filled with the byte 255. -/
def malloc_filled (n : Nat) : Option (List Nat) := some (List.replicate n 255)

/-- The three assets all equal to `mono_wav`. -/
def demo_assets : snd_assets where
  motor := mono_wav
  motor_size := 50
  read_drive := mono_wav
  read_size := 50
  seek_drive := mono_wav
  seek_size := 50

/-- The assets with the second one replaced by the two-channel header `stereo_wav`. -/
def broken_assets : snd_assets where
  motor := mono_wav
  motor_size := 50
  read_drive := stereo_wav
  read_size := 44
  seek_drive := mono_wav
  seek_size := 50

/-! ## Properties -/

/-! ### Auxiliary lemmas -/

theorem wrap16_range (x : Int) : -32768 ≤ wrap16 x ∧ wrap16 x ≤ 32767 := by
  unfold wrap16; omega

theorem wrap16_of_range {x : Int} (h1 : -32768 ≤ x) (h2 : x ≤ 32767) : wrap16 x = x := by
  unfold wrap16; omega

theorem wrap16_wrap16_add (a b : Int) : wrap16 (wrap16 a + b) = wrap16 (a + b) := by
  unfold wrap16; omega

theorem to_unsigned_natCast {W : Nat} (h : W < 4294967296) : to_unsigned (W : Int) = W := by
  unfold to_unsigned; omega

theorem length_mix_loop (msb : Bool) (raw : List Nat) (i src dst : Nat) (samples : List Int) :
    (mix_loop msb raw i src dst samples).length = samples.length := by
  induction i generalizing src dst samples with
  | zero => rfl
  | succ i ih => simp [mix_loop, ih]

theorem getD_set_int (l : List Int) (n j : Nat) (a : Int) :
    (l.set n a).getD j 0 = if j = n ∧ n < l.length then a else l.getD j 0 := by
  simp only [List.getD_eq_getElem?_getD, List.getElem?_set]
  by_cases h : n = j
  · subst h
    by_cases h2 : n < l.length
    · simp [h2]
    · simp [h2]
      simp at h2
      simp [List.getElem?_eq_none h2]
  · have : ¬ j = n := fun e => h e.symm
    simp [h, this]

theorem getD_mix_loop (msb : Bool) (raw : List Nat) (i src dst : Nat) (samples : List Int)
    (hlen : dst + 2 * i ≤ samples.length) (j : Nat) :
    (mix_loop msb raw i src dst samples).getD j 0 =
      if dst ≤ j ∧ j < dst + 2 * i then
        wrap16 (samples.getD j 0 + load_s16 msb raw (src + 2 * ((j - dst) / 2)))
      else samples.getD j 0 := by
  induction i generalizing src dst samples with
  | zero =>
    rw [if_neg (by omega)]
    rfl
  | succ i ih =>
    simp only [mix_loop]
    rw [ih _ _ _ (by simp only [List.length_set]; omega)]
    simp only [getD_set_int, List.length_set]
    split_ifs with hA hB hC hD hE hF hG hH
    all_goals first
      | rfl
      | (exfalso; omega)
      | (have h5 : src + 2 + 2 * ((j - (dst + 2)) / 2) = src + 2 * ((j - dst) / 2) := by omega
         rw [h5])
      | (have h5 : src + 2 * ((j - dst) / 2) = src := by omega
         have h6 : j = dst + 1 := by omega
         rw [h5, h6])
      | (have h5 : src + 2 * ((j - dst) / 2) = src := by omega
         have h6 : j = dst := by omega
         rw [h5, h6])

theorem retro_snd_mixer_batch_eq_list (msb : Bool) (W : Int) (sounds : List retro_guisnd_t)
    (out : List Int) (hlen : sounds.length = SND_LAST) :
    retro_snd_mixer_batch msb W sounds out = mixer_batch_list msb W sounds out := by
  match sounds, hlen with
  | [a, b, c], _ =>
    simp only [retro_snd_mixer_batch, SND_LAST, List.range, List.range.loop, List.foldl,
      mixer_batch_list]
    by_cases ha : a.state = ST_OFF <;> by_cases hb : b.state = ST_OFF <;>
      by_cases hc : c.state = ST_OFF <;> simp [ha, hb, hc]

theorem retro_snd_mixer_sample_eq_list (msb : Bool) (W : Int) (sounds : List retro_guisnd_t)
    (l r : Int) (hlen : sounds.length = SND_LAST) :
    retro_snd_mixer_sample msb W sounds l r = mixer_sample_list msb W sounds l r := by
  match sounds, hlen with
  | [a, b, c], _ =>
    simp only [retro_snd_mixer_sample, SND_LAST, List.range, List.range.loop, List.foldl,
      mixer_sample_list]
    by_cases ha : a.state = ST_OFF <;> by_cases hb : b.state = ST_OFF <;>
      by_cases hc : c.state = ST_OFF <;> simp [ha, hb, hc]

theorem mix_audio_batch_eq (msb : Bool) (W : Nat) (out : List Int) (snd : retro_guisnd_t)
    (hr : snd.sample_pos + W < 4294967296) (hp : snd.sample_pos < 2147483648) :
    mix_audio_batch msb (W : Int) out snd =
      if snd.sample_pos + W > snd.samples_tot ∧ snd.state = ST_ON then (sound_stop snd, out)
      else
        ({ snd with sample_pos := batch_start W snd + W },
          mix_loop msb (raw_bytes snd) W (2 * batch_start W snd) 0 out) := by
  have hW : to_unsigned (W : Int) = W := to_unsigned_natCast (by omega)
  have h1 : (snd.sample_pos + W) % UINT_MOD = snd.sample_pos + W :=
    Nat.mod_eq_of_lt (by unfold UINT_MOD; omega)
  have h0 : W % UINT_MOD = W := Nat.mod_eq_of_lt (by unfold UINT_MOD; omega)
  have h2 : (2 * snd.sample_pos) % UINT_MOD = 2 * snd.sample_pos :=
    Nat.mod_eq_of_lt (by unfold UINT_MOD; omega)
  unfold mix_audio_batch mix_audio_batch_frames batch_start
  rw [hW, h1]
  by_cases he : snd.sample_pos + W > snd.samples_tot
  · by_cases hs : snd.state = ST_ON
    · rw [if_pos he, if_pos hs, if_pos ⟨he, hs⟩]
    · rw [if_pos he, if_neg hs, if_neg (fun h => hs h.2), if_pos he]
      simp only [h0, AUDIO_BYTES, Nat.mul_zero, Nat.zero_mod, Nat.zero_add]
      rfl
  · rw [if_neg he, if_neg (fun h => he h.1), if_neg he]
    simp only [h1, h2, AUDIO_BYTES]

theorem length_mix_audio_batch (msb : Bool) (W : Int) (out : List Int) (snd : retro_guisnd_t) :
    (mix_audio_batch msb W out snd).2.length = out.length := by
  unfold mix_audio_batch mix_audio_batch_frames
  split_ifs <;> simp [length_mix_loop]

/-- What one clip does to the stereo buffer in a batch tick. -/
theorem getD_mix_audio_batch (msb : Bool) (W : Nat) (out : List Int) (snd : retro_guisnd_t)
    (hr : snd.sample_pos + W < 4294967296) (hp : snd.sample_pos < 2147483648)
    (hlen : 2 * W ≤ out.length) (hact : snd.state ≠ ST_OFF) (j : Nat) (hj : j < 2 * W) :
    (mix_audio_batch msb (W : Int) out snd).2.getD j 0 =
      if batch_mixed W snd then
        wrap16 (out.getD j 0 + sample_at msb snd (batch_start W snd + j / 2))
      else out.getD j 0 := by
  rw [mix_audio_batch_eq msb W out snd hr hp]
  by_cases hs : snd.sample_pos + W > snd.samples_tot ∧ snd.state = ST_ON
  · have hm : ¬ batch_mixed W snd := fun h => h.2 ⟨hs.2, hs.1⟩
    rw [if_pos hs, if_neg hm]
  · have hm : batch_mixed W snd := ⟨hact, fun h => hs ⟨h.2, h.1⟩⟩
    rw [if_neg hs, if_pos hm]
    simp only []
    rw [getD_mix_loop msb _ W _ 0 out (by omega) j, if_pos (by omega)]
    simp only [sample_at, AUDIO_BYTES, Nat.sub_zero, Nat.mul_add]

theorem length_mixer_batch_list (msb : Bool) (W : Int) (sounds : List retro_guisnd_t)
    (out : List Int) : (mixer_batch_list msb W sounds out).2.length = out.length := by
  induction sounds generalizing out with
  | nil => rfl
  | cons snd rest ih =>
    unfold mixer_batch_list
    split_ifs
    · show (mixer_batch_list msb W rest (mix_audio_batch msb W out snd).2).2.length = out.length
      rw [ih, length_mix_audio_batch]
    · exact ih out

theorem getD_mixer_batch_list (msb : Bool) (W : Nat) (sounds : List retro_guisnd_t)
    (out : List Int) (hr : ∀ snd ∈ sounds, snd.sample_pos + W < 2147483648)
    (hlen : 2 * W ≤ out.length)
    (h16 : ∀ j, j < 2 * W → -32768 ≤ out.getD j 0 ∧ out.getD j 0 ≤ 32767)
    (j : Nat) (hj : j < 2 * W) :
    (mixer_batch_list msb (W : Int) sounds out).2.getD j 0 =
      wrap16 (out.getD j 0 + (sounds.map (batch_share msb W (j / 2))).sum) := by
  induction sounds generalizing out with
  | nil =>
    simp only [mixer_batch_list, List.map_nil, List.sum_nil, add_zero]
    exact (wrap16_of_range (h16 j hj).1 (h16 j hj).2).symm
  | cons snd rest ih =>
    have hr1 : snd.sample_pos + W < 2147483648 := hr snd (List.mem_cons_self _ _)
    have hr2 : ∀ s ∈ rest, s.sample_pos + W < 2147483648 :=
      fun s hs => hr s (List.mem_cons_of_mem _ hs)
    unfold mixer_batch_list
    by_cases hact : snd.state = ST_OFF
    · have hm : ¬ batch_mixed W snd := fun h => h.1 hact
      rw [if_neg (by simpa using hact)]
      simp only [List.map_cons, List.sum_cons, batch_share, if_neg hm, zero_add]
      exact ih out hr2 hlen h16
    · rw [if_pos hact]
      simp only [List.map_cons, List.sum_cons]
      rw [ih _ hr2 (by rw [length_mix_audio_batch]; exact hlen)]
      · rw [getD_mix_audio_batch msb W out snd (by omega) (by omega) hlen hact j hj]
        unfold batch_share
        by_cases hm : batch_mixed W snd
        · rw [if_pos hm, if_pos hm, wrap16_wrap16_add, add_assoc]
        · rw [if_neg hm, if_neg hm, zero_add]
      · intro k hk
        rw [getD_mix_audio_batch msb W out snd (by omega) (by omega) hlen hact k hk]
        split_ifs
        · exact wrap16_range _
        · exact h16 k hk

theorem mixer_batch_list_all_off (msb : Bool) (W : Int) (sounds : List retro_guisnd_t)
    (out : List Int) (hoff : ∀ snd ∈ sounds, snd.state = ST_OFF) :
    mixer_batch_list msb W sounds out = (sounds, out) := by
  induction sounds generalizing out with
  | nil => rfl
  | cons snd rest ih =>
    have h1 : snd.state = ST_OFF := hoff snd (List.mem_cons_self _ _)
    unfold mixer_batch_list
    rw [if_neg (by simpa using h1), ih out (fun s hs => hoff s (List.mem_cons_of_mem _ hs))]

theorem mixer_batch_list_single (msb : Bool) (W : Int) (pre post : List retro_guisnd_t)
    (snd : retro_guisnd_t) (out : List Int)
    (hpre : ∀ s ∈ pre, s.state = ST_OFF) (hpost : ∀ s ∈ post, s.state = ST_OFF) :
    mixer_batch_list msb W (pre ++ snd :: post) out =
      (pre ++ (batch_tick msb W (snd, out)).1 :: post, (batch_tick msb W (snd, out)).2) := by
  induction pre with
  | nil =>
    simp only [List.nil_append]
    unfold mixer_batch_list batch_tick
    by_cases h : snd.state = ST_OFF
    · rw [if_neg (by simpa using h), if_neg (by simpa using h),
        mixer_batch_list_all_off msb W post out hpost]
    · rw [if_pos h, if_pos h, mixer_batch_list_all_off msb W post _ hpost]
  | cons p pre ih =>
    have h1 : p.state = ST_OFF := hpre p (List.mem_cons_self _ _)
    simp only [List.cons_append]
    unfold mixer_batch_list
    rw [if_neg (by simpa using h1), ih (fun s hs => hpre s (List.mem_cons_of_mem _ hs))]

theorem batch_calls_single (msb : Bool) (W : Int) (pre post : List retro_guisnd_t)
    (snd : retro_guisnd_t) (out : List Int)
    (hstore : (pre ++ snd :: post).length = SND_LAST)
    (hpre : ∀ s ∈ pre, s.state = ST_OFF) (hpost : ∀ s ∈ post, s.state = ST_OFF) (k : Nat) :
    batch_calls msb W k (pre ++ snd :: post, out) =
      (pre ++ ((batch_tick msb W)^[k] (snd, out)).1 :: post,
        ((batch_tick msb W)^[k] (snd, out)).2) := by
  induction k with
  | zero => rfl
  | succ k ih =>
    unfold batch_calls
    rw [ih, Function.iterate_succ_apply']
    simp only []
    rw [retro_snd_mixer_batch_eq_list _ _ _ _ (by simpa using hstore),
      mixer_batch_list_single msb W pre post _ _ hpre hpost]

theorem succ_mod_cases (k q : Nat) (hq : 0 < q) :
    (k % q + 1 < q ∧ (k + 1) % q = k % q + 1) ∨ (k % q + 1 = q ∧ (k + 1) % q = 0) := by
  have hlt : k % q < q := Nat.mod_lt k hq
  have hk : q * (k / q) + k % q = k := Nat.div_add_mod k q
  by_cases h : k % q + 1 < q
  · left
    refine ⟨h, ?_⟩
    have e : k + 1 = q * (k / q) + (k % q + 1) := by omega
    rw [e, Nat.mul_add_mod, Nat.mod_eq_of_lt h]
  · right
    have h2 : k % q + 1 = q := by omega
    refine ⟨h2, ?_⟩
    have e : k + 1 = q * (k / q + 1) := by rw [Nat.mul_add, Nat.mul_one]; omega
    rw [e, Nat.mul_mod_right]

/-- The end-of-buffer test on a cursor `r * W + W` with `r < N / W`, in terms of `r`. -/
theorem batch_start_step (N W r : Nat) (hW1 : 1 ≤ W) (hr : r < N / W) :
    (if r * W + W + W > N then 0 else r * W + W) =
      (if r + 1 = N / W then 0 else (r + 1) * W) := by
  have h1 : N / W * W ≤ N := Nat.div_mul_le_self N W
  have h2 : N < N / W * W + W := Nat.lt_div_mul_add (by omega)
  by_cases h : r + 1 = N / W
  · rw [if_pos h, if_pos]
    rw [← h, Nat.add_mul, Nat.one_mul] at h2
    omega
  · rw [if_neg h, if_neg, Nat.add_mul, Nat.one_mul]
    have h3 : (r + 2) * W ≤ N / W * W := Nat.mul_le_mul_right W (by omega)
    rw [Nat.add_mul] at h3
    omega

theorem iterate_batch_tick_looped (msb : Bool) (N W : Nat) (snd : retro_guisnd_t)
    (out : List Int) (hst : snd.state = ST_LOOP) (hN : snd.samples_tot = N)
    (hpos : snd.sample_pos = 0) (hW1 : 1 ≤ W) (hW2 : W ≤ N) (hN2 : N < 2147483648)
    (k : Nat) :
    ((batch_tick msb (W : Int))^[k] (snd, out)).1.state = ST_LOOP ∧
    ((batch_tick msb (W : Int))^[k] (snd, out)).1.samples_tot = N ∧
    ((batch_tick msb (W : Int))^[k] (snd, out)).1.rawsamples = snd.rawsamples ∧
    ((batch_tick msb (W : Int))^[k] (snd, out)).1.sample_pos ≤ N ∧
    batch_start W ((batch_tick msb (W : Int))^[k] (snd, out)).1 = (k % (N / W)) * W ∧
    ((batch_tick msb (W : Int))^[k] (snd, out)).2.length = out.length := by
  have hq : 0 < N / W := Nat.div_pos hW2 (by omega)
  induction k with
  | zero =>
    simp only [Function.iterate_zero, id_eq, batch_start, hpos, hN]
    refine ⟨hst, trivial, trivial, Nat.zero_le _, ?_, trivial⟩
    rw [if_neg (by omega)]; simp
  | succ k ih =>
    obtain ⟨i1, i2, i3, i4, i5, i6⟩ := ih
    rw [Function.iterate_succ_apply']
    generalize (batch_tick msb (W : Int))^[k] (snd, out) = st at *
    have hact : st.1.state ≠ ST_OFF := by rw [i1]; decide
    unfold batch_tick
    rw [if_pos hact, mix_audio_batch_eq msb W st.2 st.1 (by omega) (by omega), if_neg (by rw [i1]; simp)]
    simp only []
    rw [i5]
    refine ⟨i1, i2, i3, ?_, ?_, ?_⟩
    · have hlt : k % (N / W) < N / W := Nat.mod_lt k hq
      have h1 : N / W * W ≤ N := Nat.div_mul_le_self N W
      have h3 : (k % (N / W) + 1) * W ≤ N / W * W := Nat.mul_le_mul_right W (by omega)
      rw [Nat.add_mul, Nat.one_mul] at h3
      omega
    · unfold batch_start
      simp only [i2]
      rw [batch_start_step N W _ hW1 (Nat.mod_lt k hq)]
      rcases succ_mod_cases k (N / W) hq with ⟨h1, h2⟩ | ⟨h1, h2⟩
      · rw [if_neg (by omega), h2]
      · rw [if_pos h1, h2, Nat.zero_mul]
    · rw [length_mix_loop, i6]

theorem mix_audio_sample_eq (msb : Bool) (W : Nat) (snd : retro_guisnd_t) (l r : Int)
    (hr : snd.sample_pos + W < 4294967296) (hp : snd.sample_pos < 2147483648) :
    mix_audio_sample msb (W : Int) snd l r =
      if snd.sample_pos + W > snd.samples_tot ∧ snd.state = ST_ON then (sound_stop snd, l, r)
      else
        ({ snd with sample_pos := batch_start W snd + 1 },
          wrap16 (l + sample_at msb snd (batch_start W snd)),
          wrap16 (r + sample_at msb snd (batch_start W snd))) := by
  have hW : to_unsigned (W : Int) = W := to_unsigned_natCast (by omega)
  have h1 : (snd.sample_pos + W) % UINT_MOD = snd.sample_pos + W :=
    Nat.mod_eq_of_lt (by unfold UINT_MOD; omega)
  have h2 : (2 * snd.sample_pos) % UINT_MOD = 2 * snd.sample_pos :=
    Nat.mod_eq_of_lt (by unfold UINT_MOD; omega)
  have h3 : (snd.sample_pos + 1) % UINT_MOD = snd.sample_pos + 1 :=
    Nat.mod_eq_of_lt (by unfold UINT_MOD; omega)
  have h4 : (0 + 1) % UINT_MOD = 0 + 1 := by decide
  unfold mix_audio_sample mix_audio_sample_frame batch_start sample_at
  rw [hW, h1]
  by_cases he : snd.sample_pos + W > snd.samples_tot
  · by_cases hs : snd.state = ST_ON
    · rw [if_pos he, if_pos hs, if_pos ⟨he, hs⟩]
    · rw [if_pos he, if_neg hs, if_neg (fun h => hs h.2), if_pos he]
      simp only [h4, AUDIO_BYTES, Nat.mul_zero, Nat.zero_mod]
      rfl
  · rw [if_neg he, if_neg (fun h => he h.1), if_neg he]
    simp only [h2, h3, AUDIO_BYTES]

theorem mixer_sample_list_all_off (msb : Bool) (W : Int) (sounds : List retro_guisnd_t)
    (l r : Int) (hoff : ∀ snd ∈ sounds, snd.state = ST_OFF) :
    mixer_sample_list msb W sounds l r = (sounds, l, r) := by
  induction sounds with
  | nil => rfl
  | cons snd rest ih =>
    have h1 : snd.state = ST_OFF := hoff snd (List.mem_cons_self _ _)
    unfold mixer_sample_list
    rw [if_neg (by simpa using h1), ih (fun s hs => hoff s (List.mem_cons_of_mem _ hs))]

theorem mixer_sample_list_single (msb : Bool) (W : Int) (pre post : List retro_guisnd_t)
    (snd : retro_guisnd_t) (l r : Int)
    (hpre : ∀ s ∈ pre, s.state = ST_OFF) (hpost : ∀ s ∈ post, s.state = ST_OFF) :
    mixer_sample_list msb W (pre ++ snd :: post) l r =
      (pre ++ (sample_tick msb W (snd, l, r)).1 :: post, (sample_tick msb W (snd, l, r)).2) := by
  induction pre with
  | nil =>
    simp only [List.nil_append]
    unfold mixer_sample_list sample_tick
    by_cases h : snd.state = ST_OFF
    · rw [if_neg (by simpa using h), if_neg (by simpa using h),
        mixer_sample_list_all_off msb W post l r hpost]
    · rw [if_pos h, if_pos h, mixer_sample_list_all_off msb W post _ _ hpost]
  | cons p pre ih =>
    have h1 : p.state = ST_OFF := hpre p (List.mem_cons_self _ _)
    simp only [List.cons_append]
    unfold mixer_sample_list
    rw [if_neg (by simpa using h1), ih (fun s hs => hpre s (List.mem_cons_of_mem _ hs))]

theorem sample_calls_single (msb : Bool) (W : Int) (pre post : List retro_guisnd_t)
    (snd : retro_guisnd_t) (l r : Int)
    (hstore : (pre ++ snd :: post).length = SND_LAST)
    (hpre : ∀ s ∈ pre, s.state = ST_OFF) (hpost : ∀ s ∈ post, s.state = ST_OFF) (k : Nat) :
    sample_calls msb W k (pre ++ snd :: post, l, r) =
      (pre ++ ((sample_tick msb W)^[k] (snd, l, r)).1 :: post,
        ((sample_tick msb W)^[k] (snd, l, r)).2) := by
  induction k with
  | zero => rfl
  | succ k ih =>
    unfold sample_calls
    rw [ih, Function.iterate_succ_apply']
    simp only []
    rw [retro_snd_mixer_sample_eq_list _ _ _ _ _ (by simpa using hstore),
      mixer_sample_list_single msb W pre post _ _ _ hpre hpost]

theorem iterate_sample_tick_one_shot (msb : Bool) (N W : Nat) (snd : retro_guisnd_t)
    (l r : Int) (hst : snd.state = ST_ON) (hN : snd.samples_tot = N)
    (hpos : snd.sample_pos = 0) (hW1 : 1 ≤ W) (hW : W < 2147483648) (hN2 : N < 2147483648)
    (k : Nat) :
    ((sample_tick msb (W : Int))^[k] (snd, l, r)).1 = { snd with state := ST_OFF, sample_pos := 0 }
    ∨ (((sample_tick msb (W : Int))^[k] (snd, l, r)).1 = { snd with sample_pos := k } ∧ k ≤ N) := by
  induction k with
  | zero =>
    right
    refine ⟨?_, Nat.zero_le _⟩
    cases snd
    simp only at hpos
    subst hpos
    rfl
  | succ k ih =>
    rw [Function.iterate_succ_apply']
    generalize (sample_tick msb (W : Int))^[k] (snd, l, r) = st at *
    rcases ih with h | ⟨h, hk⟩
    · left
      unfold sample_tick
      rw [if_neg (by rw [h]; simp)]
      exact h
    · have hact : st.1.state ≠ ST_OFF := by rw [h]; simp [hst]
      have e1 : st.1.sample_pos = k := by rw [h]
      have e2 : st.1.samples_tot = N := by rw [h]; exact hN
      have e3 : st.1.state = ST_ON := by rw [h]; exact hst
      unfold sample_tick
      rw [if_pos hact, mix_audio_sample_eq msb W st.1 st.2.1 st.2.2 (by omega) (by omega)]
      by_cases hs : k + W > N
      · left
        rw [if_pos ⟨by omega, e3⟩, h]
        rfl
      · right
        rw [if_neg (by omega)]
        refine ⟨?_, by omega⟩
        simp only [batch_start]
        rw [if_neg (by omega), e1, h]

theorem length_fst_mixer_batch_list (msb : Bool) (W : Int) (sounds : List retro_guisnd_t)
    (out : List Int) : (mixer_batch_list msb W sounds out).1.length = sounds.length := by
  induction sounds generalizing out with
  | nil => rfl
  | cons snd rest ih =>
    unfold mixer_batch_list
    split_ifs <;> simp [ih]

theorem length_fst_mixer_sample_list (msb : Bool) (W : Int) (sounds : List retro_guisnd_t)
    (l r : Int) : (mixer_sample_list msb W sounds l r).1.length = sounds.length := by
  induction sounds generalizing l r with
  | nil => rfl
  | cons snd rest ih =>
    unfold mixer_sample_list
    split_ifs <;> simp [ih]

theorem get_mixer_batch_list (msb : Bool) (W : Int) (sounds : List retro_guisnd_t)
    (out : List Int) (n : Nat) (snd : retro_guisnd_t) (h : sounds.get? n = some snd) :
    ∃ out1, (mixer_batch_list msb W sounds out).1.get? n =
      some (batch_tick msb W (snd, out1)).1 := by
  induction sounds generalizing out n with
  | nil => simp at h
  | cons hd rest ih =>
    cases n with
    | zero =>
      simp only [List.get?_cons_zero, Option.some.injEq] at h
      subst h
      refine ⟨out, ?_⟩
      unfold mixer_batch_list batch_tick
      split_ifs <;> rfl
    | succ n =>
      simp only [List.get?_cons_succ] at h
      unfold mixer_batch_list
      split_ifs
      · exact ih _ n h
      · exact ih _ n h

theorem get_mixer_sample_list (msb : Bool) (W : Int) (sounds : List retro_guisnd_t)
    (l r : Int) (n : Nat) (snd : retro_guisnd_t) (h : sounds.get? n = some snd) :
    ∃ l1 r1, (mixer_sample_list msb W sounds l r).1.get? n =
      some (sample_tick msb W (snd, l1, r1)).1 := by
  induction sounds generalizing l r n with
  | nil => simp at h
  | cons hd rest ih =>
    cases n with
    | zero =>
      simp only [List.get?_cons_zero, Option.some.injEq] at h
      subst h
      refine ⟨l, r, ?_⟩
      unfold mixer_sample_list sample_tick
      split_ifs <;> rfl
    | succ n =>
      simp only [List.get?_cons_succ] at h
      unfold mixer_sample_list
      split_ifs
      · exact ih _ _ n h
      · exact ih _ _ n h

theorem batch_tick_looped (msb : Bool) (W : Int) (snd : retro_guisnd_t) (out : List Int)
    (hst : snd.state = ST_LOOP) :
    (batch_tick msb W (snd, out)).1 =
      { snd with sample_pos := looped_cursor_step W snd.samples_tot snd.sample_pos true } := by
  unfold batch_tick mix_audio_batch mix_audio_batch_frames looped_cursor_step
  simp only [hst]
  split_ifs <;> simp_all

theorem sample_tick_looped (msb : Bool) (W : Int) (snd : retro_guisnd_t) (l r : Int)
    (hst : snd.state = ST_LOOP) :
    (sample_tick msb W (snd, l, r)).1 =
      { snd with sample_pos := looped_cursor_step W snd.samples_tot snd.sample_pos false } := by
  unfold sample_tick mix_audio_sample mix_audio_sample_frame looped_cursor_step
  simp only [hst]
  split_ifs <;> simp_all

theorem run_call_looped (msb : Bool) (W : Int) (sounds : List retro_guisnd_t) (n : Nat)
    (snd : retro_guisnd_t) (c : mixer_call) (hstore : sounds.length = SND_LAST)
    (h : sounds.get? n = some snd) (hst : snd.state = ST_LOOP) :
    (run_call msb W sounds c).length = SND_LAST ∧
    (run_call msb W sounds c).get? n =
      some { snd with
        sample_pos := looped_cursor_step W snd.samples_tot snd.sample_pos c.is_batch } := by
  cases c with
  | batch buf =>
    simp only [run_call, mixer_call.is_batch]
    rw [retro_snd_mixer_batch_eq_list msb W sounds buf hstore]
    refine ⟨by rw [length_fst_mixer_batch_list]; exact hstore, ?_⟩
    obtain ⟨out1, e⟩ := get_mixer_batch_list msb W sounds buf n snd h
    rw [e, batch_tick_looped msb W snd out1 hst]
  | sample l r =>
    simp only [run_call, mixer_call.is_batch]
    rw [retro_snd_mixer_sample_eq_list msb W sounds l r hstore]
    refine ⟨by rw [length_fst_mixer_sample_list]; exact hstore, ?_⟩
    obtain ⟨l1, r1, e⟩ := get_mixer_sample_list msb W sounds l r n snd h
    rw [e, sample_tick_looped msb W snd l1 r1 hst]

theorem sound_load_true (msb : Bool) (malloc : Nat → Option (List Nat))
    (snd : retro_guisnd_t) (buffer : List Nat) (buffer_size : Int) (c : retro_guisnd_t)
    (h : sound_load msb malloc snd buffer buffer_size = some (true, c)) :
    44 ≤ buffer.length ∧
    (WAVhead_of_bytes msb buffer).NumChannels = 1 ∧
    (WAVhead_of_bytes msb buffer).BitsPerSample = 16 ∧
    ∃ block bytes, malloc (WAVhead_of_bytes msb buffer).Subchunk2Size = some block ∧
      memcpy block buffer 44 (buffer_size - 44) = some bytes ∧
      c = { snd with
        head := WAVhead_of_bytes msb buffer
        samples_tot := (WAVhead_of_bytes msb buffer).Subchunk2Size / AUDIO_BYTES
        rawsamples := some bytes
        state := ST_OFF
        sample_pos := 0
        ready_to_play := true } := by
  unfold sound_load at h
  by_cases h0 : buffer.length < 44
  · rw [if_pos h0] at h; cases h
  · rw [if_neg h0] at h
    simp only [] at h
    by_cases hf : (WAVhead_of_bytes msb buffer).NumChannels ≠ 1 ∨
        (WAVhead_of_bytes msb buffer).BitsPerSample ≠ 16
    · rw [if_pos hf] at h
      simp at h
    · rw [if_neg hf] at h
      have hch : (WAVhead_of_bytes msb buffer).NumChannels = 1 := by
        by_contra hc; exact hf (Or.inl hc)
      have hb : (WAVhead_of_bytes msb buffer).BitsPerSample = 16 := by
        by_contra hc; exact hf (Or.inr hc)
      refine ⟨by omega, hch, hb, ?_⟩
      cases hm : malloc (WAVhead_of_bytes msb buffer).Subchunk2Size with
      | none => rw [hm] at h; simp at h
      | some block =>
        rw [hm] at h
        simp only [] at h
        cases hc : memcpy block buffer 44 (buffer_size - 44) with
        | none => rw [hc] at h; cases h
        | some bytes =>
          rw [hc] at h
          simp only [Option.some.injEq, Prod.mk.injEq, true_and] at h
          exact ⟨block, bytes, rfl, hc, h.symm⟩

theorem sound_load_false (msb : Bool) (malloc : Nat → Option (List Nat))
    (snd : retro_guisnd_t) (buffer : List Nat) (buffer_size : Int) (c : retro_guisnd_t)
    (h : sound_load msb malloc snd buffer buffer_size = some (false, c)) :
    c.ready_to_play = snd.ready_to_play ∧ c.state = snd.state ∧
      c.sample_pos = snd.sample_pos ∧
      (c.samples_tot = snd.samples_tot ∨
        c.samples_tot = (WAVhead_of_bytes msb buffer).Subchunk2Size / AUDIO_BYTES) := by
  unfold sound_load at h
  by_cases h0 : buffer.length < 44
  · rw [if_pos h0] at h; cases h
  · rw [if_neg h0] at h
    simp only [] at h
    by_cases hf : (WAVhead_of_bytes msb buffer).NumChannels ≠ 1 ∨
        (WAVhead_of_bytes msb buffer).BitsPerSample ≠ 16
    · rw [if_pos hf] at h
      simp only [Option.some.injEq, Prod.mk.injEq, true_and] at h
      rw [← h]
      exact ⟨rfl, rfl, rfl, Or.inl rfl⟩
    · rw [if_neg hf] at h
      cases hm : malloc (WAVhead_of_bytes msb buffer).Subchunk2Size with
      | none =>
        rw [hm] at h
        simp only [Option.some.injEq, Prod.mk.injEq, true_and] at h
        rw [← h]
        exact ⟨rfl, rfl, rfl, Or.inr rfl⟩
      | some block =>
        rw [hm] at h
        simp only [] at h
        cases hc : memcpy block buffer 44 (buffer_size - 44) with
        | none => rw [hc] at h; cases h
        | some bytes => rw [hc] at h; simp at h

theorem init_retro_snd_eq (msb : Bool) (malloc : Nat → Nat → Option (List Nat))
    (assets : snd_assets) (g : snd_globals) (size : Int) :
    init_retro_snd msb malloc assets g size =
      match sound_load msb (malloc SND_FDCMOTOR) idle_clip assets.motor assets.motor_size with
      | none => none
      | some (false, c0) => some (false, { g with sounds := [c0, idle_clip, idle_clip] })
      | some (true, c0) =>
        match sound_load msb (malloc SND_FDCREAD) idle_clip assets.read_drive
            assets.read_size with
        | none => none
        | some (false, c1) => some (false, { g with sounds := [c0, c1, idle_clip] })
        | some (true, c1) =>
          match sound_load msb (malloc SND_FDCSEEK) idle_clip assets.seek_drive
              assets.seek_size with
          | none => none
          | some (false, c2) => some (false, { g with sounds := [c0, c1, c2] })
          | some (true, c2) =>
            some (true,
              { sounds := [c0, c1, c2]
                snd_buffer_size := (size.tdiv 2).tdiv 2
                snd_buffer_set := true }) := by
  unfold init_retro_snd load_slot
  have e0 : (List.replicate SND_LAST idle_clip).get? SND_FDCMOTOR = some idle_clip := rfl
  rw [e0]
  simp only []
  cases h0 : sound_load msb (malloc SND_FDCMOTOR) idle_clip assets.motor assets.motor_size with
  | none => rfl
  | some r0 =>
    obtain ⟨b0, c0⟩ := r0
    cases b0 with
    | false => rfl
    | true =>
      simp only []
      have e1 : (List.set (List.replicate SND_LAST idle_clip) SND_FDCMOTOR c0).get? SND_FDCREAD =
          some idle_clip := rfl
      rw [e1]
      simp only []
      cases h1 : sound_load msb (malloc SND_FDCREAD) idle_clip assets.read_drive
          assets.read_size with
      | none => rfl
      | some r1 =>
        obtain ⟨b1, c1⟩ := r1
        cases b1 with
        | false => rfl
        | true =>
          simp only []
          have e2 : (List.set (List.set (List.replicate SND_LAST idle_clip) SND_FDCMOTOR c0)
              SND_FDCREAD c1).get? SND_FDCSEEK = some idle_clip := rfl
          rw [e2]
          simp only []
          cases h2 : sound_load msb (malloc SND_FDCSEEK) idle_clip assets.seek_drive
              assets.seek_size with
          | none => rfl
          | some r2 =>
            obtain ⟨b2, c2⟩ := r2
            cases b2 with
            | false => rfl
            | true => rfl
theorem map_set_same {α β : Type} (f : α → β) (l : List α) (n : Nat) (a b : α)
    (h : l.get? n = some b) (hf : f a = f b) : (l.set n a).map f = l.map f := by
  induction l generalizing n with
  | nil => rfl
  | cons x xs ih =>
    cases n with
    | zero =>
      simp only [List.get?_cons_zero, Option.some.injEq] at h
      simp only [List.set_cons_zero, List.map_cons, hf, h]
    | succ n =>
      simp only [List.get?_cons_succ] at h
      simp only [List.set_cons_succ, List.map_cons, ih n h]

/-- What `retro_snd_cmd` returns when it does not fault: the store as it was, or the
store with the state (and for `ST_OFF` the cursor) of one ready clip rewritten. -/
theorem retro_snd_cmd_some (sounds sounds1 : List retro_guisnd_t) (t : Int)
    (st : audio_status_t) (h : retro_snd_cmd sounds t st = some sounds1) :
    sounds1 = sounds ∨
    ∃ n snd, sounds.get? n = some snd ∧ snd.ready_to_play = true ∧
      sounds1 = sounds.set n { snd with
        state := st
        sample_pos := if st = ST_OFF then 0 else snd.sample_pos } := by
  unfold retro_snd_cmd at h
  by_cases hge : t ≥ (SND_LAST : Int)
  · rw [if_pos hge] at h
    left
    exact (Option.some.inj h).symm
  · rw [if_neg hge] at h
    cases hat : sounds_at sounds t with
    | none => rw [hat] at h; cases h
    | some snd =>
      rw [hat] at h
      simp only [] at h
      by_cases hr : snd.ready_to_play = true
      · right
        rw [if_neg (show ¬ ((!snd.ready_to_play) = true) by simp [hr])] at h
        unfold sounds_at at hat
        by_cases h0 : 0 ≤ t
        · rw [if_pos h0] at hat
          refine ⟨t.toNat, snd, hat, hr, ?_⟩
          rw [← Option.some.inj h]
          by_cases hs : st = ST_OFF
          · simp [hs]
          · simp [hs]
        · rw [if_neg h0] at hat; cases hat
      · left
        rw [if_pos (show (!snd.ready_to_play) = true by simpa using hr)] at h
        exact (Option.some.inj h).symm

/-- With a slot index that is not negative, `retro_snd_cmd` on a store of `SND_LAST`
clips does not fault. -/
theorem retro_snd_cmd_isSome (sounds : List retro_guisnd_t) (t : Int) (st : audio_status_t)
    (hstore : sounds.length = SND_LAST) (h0 : 0 ≤ t) :
    ∃ sounds1, retro_snd_cmd sounds t st = some sounds1 := by
  unfold retro_snd_cmd
  by_cases hge : t ≥ (SND_LAST : Int)
  · rw [if_pos hge]; exact ⟨_, rfl⟩
  · rw [if_neg hge]
    have hlt : t.toNat < sounds.length := by omega
    have hat : sounds_at sounds t = some (sounds.get ⟨t.toNat, hlt⟩) := by
      unfold sounds_at
      rw [if_pos h0]
      exact List.get?_eq_get hlt
    rw [hat]
    simp only []
    split_ifs <;> exact ⟨_, rfl⟩

theorem clip_data_mix_audio_batch (msb : Bool) (W : Int) (out : List Int)
    (snd : retro_guisnd_t) : clip_data (mix_audio_batch msb W out snd).1 = clip_data snd := by
  unfold mix_audio_batch mix_audio_batch_frames
  split_ifs <;> rfl

theorem clip_data_mix_audio_sample (msb : Bool) (W : Int) (snd : retro_guisnd_t) (l r : Int) :
    clip_data (mix_audio_sample msb W snd l r).1 = clip_data snd := by
  unfold mix_audio_sample mix_audio_sample_frame
  split_ifs <;> rfl

theorem map_clip_data_mixer_batch_list (msb : Bool) (W : Int) (sounds : List retro_guisnd_t)
    (out : List Int) :
    (mixer_batch_list msb W sounds out).1.map clip_data = sounds.map clip_data := by
  induction sounds generalizing out with
  | nil => rfl
  | cons snd rest ih =>
    unfold mixer_batch_list
    split_ifs
    · simp only [List.map_cons, ih, clip_data_mix_audio_batch]
    · simp only [List.map_cons, ih]

theorem map_clip_data_mixer_sample_list (msb : Bool) (W : Int) (sounds : List retro_guisnd_t)
    (l r : Int) :
    (mixer_sample_list msb W sounds l r).1.map clip_data = sounds.map clip_data := by
  induction sounds generalizing l r with
  | nil => rfl
  | cons snd rest ih =>
    unfold mixer_sample_list
    split_ifs
    · simp only [List.map_cons, ih, clip_data_mix_audio_sample]
    · simp only [List.map_cons, ih]
theorem mem_mix_loop_reads (i src off : Nat) :
    off ∈ mix_loop_reads i src ↔ ∃ k, k < i ∧ off = src + 2 * k := by
  induction i generalizing src with
  | zero => simp [mix_loop_reads]
  | succ i ih =>
    simp only [mix_loop_reads, List.mem_cons, ih]
    constructor
    · rintro (h | ⟨k, hk, h⟩)
      · exact ⟨0, by omega, by omega⟩
      · exact ⟨k + 1, by omega, by omega⟩
    · rintro ⟨k, hk, h⟩
      cases k with
      | zero => left; omega
      | succ k => right; exact ⟨k, by omega, by omega⟩

theorem mix_loop_congr (msb : Bool) (raw raw1 : List Nat) (i src dst : Nat)
    (samples : List Int)
    (h : ∀ off ∈ mix_loop_reads i src, load_s16 msb raw off = load_s16 msb raw1 off) :
    mix_loop msb raw i src dst samples = mix_loop msb raw1 i src dst samples := by
  induction i generalizing src dst samples with
  | zero => rfl
  | succ i ih =>
    have h0 : load_s16 msb raw src = load_s16 msb raw1 src :=
      h src (by simp [mix_loop_reads])
    simp only [mix_loop, h0]
    exact ih _ _ _ (fun off hoff => h off (by simp [mix_loop_reads, hoff]))

/-- The offsets of `mix_audio_batch_reads` are all that `mix_audio_batch` takes from the
clip's block: another block with the same samples at these offsets gives the same
result. -/
theorem mix_audio_batch_reads_complete (msb : Bool) (W : Int) (out : List Int)
    (snd : retro_guisnd_t) (raw1 : Option (List Nat))
    (h : ∀ off ∈ mix_audio_batch_reads W snd,
      load_s16 msb (raw_bytes snd) off = load_s16 msb (raw1.getD []) off) :
    (mix_audio_batch msb W out { snd with rawsamples := raw1 }).2 =
      (mix_audio_batch msb W out snd).2 := by
  unfold mix_audio_batch_reads at h
  unfold mix_audio_batch mix_audio_batch_frames
  simp only []
  by_cases he : (snd.sample_pos + to_unsigned W) % UINT_MOD > snd.samples_tot
  · rw [if_pos he] at h
    rw [if_pos he, if_pos he]
    by_cases hs : snd.state = ST_ON
    · rw [if_pos hs, if_pos hs]
    · rw [if_neg hs] at h
      rw [if_neg hs, if_neg hs]
      exact (mix_loop_congr msb _ _ _ _ _ _ h).symm
  · rw [if_neg he] at h
    rw [if_neg he, if_neg he]
    exact (mix_loop_congr msb _ _ _ _ _ _ h).symm

/-- The offsets of `mix_audio_sample_reads` are all that `mix_audio_sample` takes from
the clip's block. -/
theorem mix_audio_sample_reads_complete (msb : Bool) (W : Int) (snd : retro_guisnd_t)
    (l r : Int) (raw1 : Option (List Nat))
    (h : ∀ off ∈ mix_audio_sample_reads W snd,
      load_s16 msb (raw_bytes snd) off = load_s16 msb (raw1.getD []) off) :
    (mix_audio_sample msb W { snd with rawsamples := raw1 } l r).2 =
      (mix_audio_sample msb W snd l r).2 := by
  unfold mix_audio_sample_reads at h
  unfold mix_audio_sample mix_audio_sample_frame
  simp only []
  by_cases he : (snd.sample_pos + to_unsigned W) % UINT_MOD > snd.samples_tot
  · rw [if_pos he] at h
    rw [if_pos he, if_pos he]
    by_cases hs : snd.state = ST_ON
    · rw [if_pos hs, if_pos hs]
    · rw [if_neg hs] at h
      rw [if_neg hs, if_neg hs]
      have h0 := h _ (List.mem_singleton_self _)
      simp only [raw_bytes] at h0 ⊢
      rw [h0]
  · rw [if_neg he] at h
    rw [if_neg he, if_neg he]
    have h0 := h _ (List.mem_singleton_self _)
    simp only [raw_bytes] at h0 ⊢
    rw [h0]
theorem iterate_batch_tick_one_shot (msb : Bool) (N W : Nat) (snd : retro_guisnd_t)
    (out : List Int) (hst : snd.state = ST_ON) (hN : snd.samples_tot = N)
    (hpos : snd.sample_pos = 0) (hW : W < 2147483648) (hN2 : N < 2147483648)
    (k : Nat) (hk : k ≤ N / W) :
    ((batch_tick msb (W : Int))^[k] (snd, out)).1 = { snd with sample_pos := k * W } ∧
    ((batch_tick msb (W : Int))^[k] (snd, out)).2.length = out.length := by
  induction k with
  | zero =>
    refine ⟨?_, rfl⟩
    cases snd
    simp only at hpos
    subst hpos
    simp
  | succ k ih =>
    obtain ⟨i1, i2⟩ := ih (by omega)
    rw [Function.iterate_succ_apply']
    generalize (batch_tick msb (W : Int))^[k] (snd, out) = st at *
    have hq : (k + 1) * W ≤ N / W * W := Nat.mul_le_mul_right W hk
    have hq2 : N / W * W ≤ N := Nat.div_mul_le_self N W
    rw [Nat.add_mul, Nat.one_mul] at hq
    have e1 : st.1.sample_pos = k * W := by rw [i1]
    have e2 : st.1.samples_tot = N := by rw [i1]; exact hN
    have hact : st.1.state ≠ ST_OFF := by rw [i1]; simp [hst]
    unfold batch_tick
    rw [if_pos hact, mix_audio_batch_eq msb W st.2 st.1 (by omega) (by omega),
      if_neg (by omega)]
    refine ⟨?_, by rw [length_mix_loop, i2]⟩
    simp only [batch_start]
    rw [if_neg (by omega), e1, i1, Nat.add_mul, Nat.one_mul]

theorem iterate_batch_tick_off (msb : Bool) (W : Int) (st : retro_guisnd_t × List Int)
    (hoff : st.1.state = ST_OFF) (m : Nat) : (batch_tick msb W)^[m] st = st := by
  induction m with
  | zero => rfl
  | succ m ih =>
    rw [Function.iterate_succ_apply', ih]
    unfold batch_tick
    rw [if_neg (by simp [hoff])]
theorem forall_mixer_batch_list (msb : Bool) (W : Int) (P : retro_guisnd_t → Prop)
    (hstep : ∀ snd out, P snd → snd.state ≠ ST_OFF → P (mix_audio_batch msb W out snd).1)
    (sounds : List retro_guisnd_t) (out : List Int) (h : ∀ snd ∈ sounds, P snd) :
    ∀ snd ∈ (mixer_batch_list msb W sounds out).1, P snd := by
  induction sounds generalizing out with
  | nil => intro snd hsnd; cases hsnd
  | cons hd tl ih =>
    have hhd : P hd := h hd (List.mem_cons_self _ _)
    have htl : ∀ s ∈ tl, P s := fun s hs => h s (List.mem_cons_of_mem _ hs)
    unfold mixer_batch_list
    split_ifs with hs
    · intro snd hsnd
      rcases List.mem_cons.1 hsnd with e | e
      · rw [e]; exact hstep hd out hhd hs
      · exact ih _ htl snd e
    · intro snd hsnd
      rcases List.mem_cons.1 hsnd with e | e
      · rw [e]; exact hhd
      · exact ih _ htl snd e

theorem forall_mixer_sample_list (msb : Bool) (W : Int) (P : retro_guisnd_t → Prop)
    (hstep : ∀ snd l r, P snd → snd.state ≠ ST_OFF → P (mix_audio_sample msb W snd l r).1)
    (sounds : List retro_guisnd_t) (l r : Int) (h : ∀ snd ∈ sounds, P snd) :
    ∀ snd ∈ (mixer_sample_list msb W sounds l r).1, P snd := by
  induction sounds generalizing l r with
  | nil => intro snd hsnd; cases hsnd
  | cons hd tl ih =>
    have hhd : P hd := h hd (List.mem_cons_self _ _)
    have htl : ∀ s ∈ tl, P s := fun s hs => h s (List.mem_cons_of_mem _ hs)
    unfold mixer_sample_list
    split_ifs with hs
    · intro snd hsnd
      rcases List.mem_cons.1 hsnd with e | e
      · rw [e]; exact hstep hd l r hhd hs
      · exact ih _ _ htl snd e
    · intro snd hsnd
      rcases List.mem_cons.1 hsnd with e | e
      · rw [e]; exact hhd
      · exact ih _ _ htl snd e

/-- A property of globals that every call of a sequence preserves holds at the end of
the sequence. -/
theorem run_session_induct (msb : Bool) (Inv : snd_globals → Prop) (ok : snd_call → Prop)
    (hstep : ∀ g c g1, Inv g → ok c → c.run msb g = some g1 → Inv g1)
    (calls : List snd_call) (g g2 : snd_globals) (h0 : Inv g) (hok : ∀ c ∈ calls, ok c)
    (hrun : run_session msb g calls = some g2) : Inv g2 := by
  induction calls generalizing g with
  | nil =>
    simp only [run_session, Option.some.injEq] at hrun
    rw [← hrun]; exact h0
  | cons c cs ih =>
    unfold run_session at hrun
    cases hc : c.run msb g with
    | none => rw [hc] at hrun; cases hrun
    | some g1 =>
      rw [hc] at hrun
      exact ih g1 (hstep g c g1 h0 (hok c (List.mem_cons_self _ _)) hc)
        (fun c1 h1 => hok c1 (List.mem_cons_of_mem _ h1)) hrun

theorem byte_at_lt (mem : List Nat) (i : Nat) : byte_at mem i < 256 :=
  Nat.mod_lt _ (by decide)

theorem load_u32_lt (msb : Bool) (mem : List Nat) (off : Nat) :
    load_u32 msb mem off < 4294967296 := by
  have a := byte_at_lt mem off
  have b := byte_at_lt mem (off + 1)
  have c := byte_at_lt mem (off + 2)
  have d := byte_at_lt mem (off + 2 + 1)
  unfold load_u32 load_u16
  cases msb <;> simp only [if_true, if_false, Bool.false_eq_true] <;> omega

/-- The cursor after a mixer call on a clip whose length is at least the width. -/
theorem mix_cursor_in_range (msb : Bool) (W : Nat) (snd : retro_guisnd_t)
    (out : List Int) (l r : Int) (hpos : snd.sample_pos ≤ snd.samples_tot)
    (hW1 : 1 ≤ W) (hW2 : W ≤ snd.samples_tot) (hN : snd.samples_tot < 2147483648) :
    (mix_audio_batch msb (W : Int) out snd).1.samples_tot = snd.samples_tot ∧
    (mix_audio_batch msb (W : Int) out snd).1.sample_pos ≤ snd.samples_tot ∧
    (mix_audio_sample msb (W : Int) snd l r).1.samples_tot = snd.samples_tot ∧
    (mix_audio_sample msb (W : Int) snd l r).1.sample_pos ≤ snd.samples_tot := by
  have hs : batch_start W snd + W ≤ snd.samples_tot := by
    unfold batch_start; split_ifs <;> omega
  refine ⟨?_, ?_, ?_, ?_⟩
  · rw [mix_audio_batch_eq msb W out snd (by omega) (by omega)]
    split_ifs <;> rfl
  · rw [mix_audio_batch_eq msb W out snd (by omega) (by omega)]
    split_ifs
    · exact Nat.zero_le _
    · exact hs
  · rw [mix_audio_sample_eq msb W snd l r (by omega) (by omega)]
    split_ifs <;> rfl
  · rw [mix_audio_sample_eq msb W snd l r (by omega) (by omega)]
    split_ifs
    · exact Nat.zero_le _
    · show batch_start W snd + 1 ≤ snd.samples_tot
      omega

/-- One playback call keeps every cursor at most `samples_tot` when the width is
between 1 and the length of every clip. -/
theorem playback_step_cursor (msb : Bool) (W : Nat) (hW1 : 1 ≤ W) (g g1 : snd_globals)
    (c : snd_call)
    (hinv : g.sounds.length = SND_LAST ∧ g.snd_buffer_size = (W : Int) ∧
      ∀ snd ∈ g.sounds, W ≤ snd.samples_tot ∧ snd.samples_tot < 2147483648 ∧
        snd.sample_pos ≤ snd.samples_tot)
    (hc : c.is_playback = true) (hrun : c.run msb g = some g1) :
    g1.sounds.length = SND_LAST ∧ g1.snd_buffer_size = (W : Int) ∧
      ∀ snd ∈ g1.sounds, W ≤ snd.samples_tot ∧ snd.samples_tot < 2147483648 ∧
        snd.sample_pos ≤ snd.samples_tot := by
  obtain ⟨hlen, hw, hall⟩ := hinv
  cases c with
  | init m a s => cases hc
  | free => cases hc
  | cmd t st =>
    simp only [snd_call.run] at hrun
    cases hcmd : retro_snd_cmd g.sounds t st with
    | none => rw [hcmd] at hrun; cases hrun
    | some sounds1 =>
      rw [hcmd] at hrun
      simp only [Option.map_some', Option.some.injEq] at hrun
      rw [← hrun]
      rcases retro_snd_cmd_some g.sounds sounds1 t st hcmd with e | ⟨n, snd, hn, _, e⟩
      · rw [e]; exact ⟨hlen, hw, hall⟩
      · rw [e]
        refine ⟨by rw [List.length_set]; exact hlen, hw, fun s hs => ?_⟩
        have hmem : snd ∈ g.sounds := List.mem_iff_get?.2 ⟨n, hn⟩
        obtain ⟨a1, a2, a3⟩ := hall snd hmem
        rcases List.mem_or_eq_of_mem_set hs with h1 | h1
        · exact hall s h1
        · rw [h1]
          refine ⟨a1, a2, ?_⟩
          show (if st = ST_OFF then 0 else snd.sample_pos) ≤ snd.samples_tot
          split_ifs
          · exact Nat.zero_le _
          · exact a3
  | batch buf =>
    simp only [snd_call.run, Option.some.injEq] at hrun
    rw [← hrun]
    simp only []
    rw [retro_snd_mixer_batch_eq_list msb _ _ buf hlen, hw]
    refine ⟨by rw [length_fst_mixer_batch_list]; exact hlen, rfl, ?_⟩
    apply forall_mixer_batch_list msb W _ _ g.sounds buf hall
    intro snd out ⟨a1, a2, a3⟩ _
    obtain ⟨b1, b2, _, _⟩ := mix_cursor_in_range msb W snd out 0 0 a3 hW1 a1 a2
    rw [b1]
    exact ⟨a1, a2, b2⟩
  | sample l r =>
    simp only [snd_call.run, Option.some.injEq] at hrun
    rw [← hrun]
    simp only []
    rw [retro_snd_mixer_sample_eq_list msb _ _ l r hlen, hw]
    refine ⟨by rw [length_fst_mixer_sample_list]; exact hlen, rfl, ?_⟩
    apply forall_mixer_sample_list msb W _ _ g.sounds l r hall
    intro snd l1 r1 ⟨a1, a2, a3⟩ _
    obtain ⟨_, _, b1, b2⟩ := mix_cursor_in_range msb W snd [] l1 r1 a3 hW1 a1 a2
    rw [b1]
    exact ⟨a1, a2, b2⟩
theorem subchunk2_half_lt (msb : Bool) (buf : List Nat) :
    (WAVhead_of_bytes msb buf).Subchunk2Size / AUDIO_BYTES < 2147483648 := by
  have := load_u32_lt msb buf 40
  show load_u32 msb buf 40 / 2 < 2147483648
  omega

/-- What every completed `init_retro_snd` leaves: a store of `SND_LAST` clips in which a
clip that is not ready is in state `ST_OFF`, and every clip has cursor 0 and fewer than
`2^31` samples; the batch width is untouched when the call returns false. -/
theorem init_retro_snd_store (msb : Bool) (malloc : Nat → Nat → Option (List Nat))
    (assets : snd_assets) (g g1 : snd_globals) (size : Int) (b : Bool)
    (h : init_retro_snd msb malloc assets g size = some (b, g1)) :
    g1.sounds.length = SND_LAST ∧
    (∀ snd ∈ g1.sounds,
      (snd.ready_to_play = false → snd.state = ST_OFF) ∧ snd.sample_pos = 0 ∧
        snd.samples_tot < 2147483648) ∧
    (b = false → g1.snd_buffer_size = g.snd_buffer_size) := by
  have hidle : (idle_clip.ready_to_play = false → idle_clip.state = ST_OFF) ∧
      idle_clip.sample_pos = 0 ∧ idle_clip.samples_tot < 2147483648 := by decide
  have hload : ∀ (m : Nat → Option (List Nat)) (buf : List Nat) (sz : Int) (bb : Bool)
      (c : retro_guisnd_t), sound_load msb m idle_clip buf sz = some (bb, c) →
      (c.ready_to_play = false → c.state = ST_OFF) ∧ c.sample_pos = 0 ∧
        c.samples_tot < 2147483648 := by
    intro m buf sz bb c hc
    cases bb with
    | true =>
      obtain ⟨_, _, _, _, _, _, _, d⟩ := sound_load_true _ _ _ _ _ _ hc
      rw [d]
      exact ⟨fun _ => rfl, rfl, subchunk2_half_lt msb buf⟩
    | false =>
      obtain ⟨_, d2, d3, d4⟩ := sound_load_false _ _ _ _ _ _ hc
      refine ⟨fun _ => d2, d3, ?_⟩
      rcases d4 with d4 | d4
      · rw [d4]; decide
      · rw [d4]; exact subchunk2_half_lt msb buf
  have hthree : ∀ a b c : retro_guisnd_t, ∀ P : retro_guisnd_t → Prop,
      P a → P b → P c → ∀ snd ∈ [a, b, c], P snd := by
    intro a b c P ha hb hc snd hsnd
    simp only [List.mem_cons, List.mem_singleton, List.not_mem_nil, or_false] at hsnd
    rcases hsnd with e | e | e <;> rw [e] <;> assumption
  rw [init_retro_snd_eq] at h
  cases h0 : sound_load msb (malloc SND_FDCMOTOR) idle_clip assets.motor
      assets.motor_size with
  | none => rw [h0] at h; cases h
  | some r0 =>
    obtain ⟨b0, c0⟩ := r0
    have p0 := hload _ _ _ _ _ h0
    rw [h0] at h
    cases b0 with
    | false =>
      simp only [Option.some.injEq, Prod.mk.injEq] at h
      rw [← h.1, ← h.2]
      exact ⟨rfl, hthree _ _ _ _ p0 hidle hidle, fun _ => rfl⟩
    | true =>
      simp only [] at h
      cases h1 : sound_load msb (malloc SND_FDCREAD) idle_clip assets.read_drive
          assets.read_size with
      | none => rw [h1] at h; cases h
      | some r1 =>
        obtain ⟨b1, c1⟩ := r1
        have p1 := hload _ _ _ _ _ h1
        rw [h1] at h
        cases b1 with
        | false =>
          simp only [Option.some.injEq, Prod.mk.injEq] at h
          rw [← h.1, ← h.2]
          exact ⟨rfl, hthree _ _ _ _ p0 p1 hidle, fun _ => rfl⟩
        | true =>
          simp only [] at h
          cases h2 : sound_load msb (malloc SND_FDCSEEK) idle_clip assets.seek_drive
              assets.seek_size with
          | none => rw [h2] at h; cases h
          | some r2 =>
            obtain ⟨b2, c2⟩ := r2
            have p2 := hload _ _ _ _ _ h2
            rw [h2] at h
            cases b2 with
            | false =>
              simp only [Option.some.injEq, Prod.mk.injEq] at h
              rw [← h.1, ← h.2]
              exact ⟨rfl, hthree _ _ _ _ p0 p1 p2, fun _ => rfl⟩
            | true =>
              simp only [Option.some.injEq, Prod.mk.injEq] at h
              rw [← h.1, ← h.2]
              exact ⟨rfl, hthree _ _ _ _ p0 p1 p2, fun hb => by cases hb⟩
theorem ready_mix_audio_batch (msb : Bool) (W : Int) (out : List Int) (snd : retro_guisnd_t) :
    (mix_audio_batch msb W out snd).1.ready_to_play = snd.ready_to_play := by
  have h := clip_data_mix_audio_batch msb W out snd
  unfold clip_data at h
  simp only [Prod.mk.injEq] at h
  exact h.2.2.2.2.2

theorem ready_mix_audio_sample (msb : Bool) (W : Int) (snd : retro_guisnd_t) (l r : Int) :
    (mix_audio_sample msb W snd l r).1.ready_to_play = snd.ready_to_play := by
  have h := clip_data_mix_audio_sample msb W snd l r
  unfold clip_data at h
  simp only [Prod.mk.injEq] at h
  exact h.2.2.2.2.2

theorem free_retro_snd_store (g : snd_globals) (hstore : g.sounds.length = SND_LAST) :
    (free_retro_snd g).sounds.length = SND_LAST ∧
    ∀ snd ∈ (free_retro_snd g).sounds,
      snd.state = ST_OFF ∧ snd.sample_pos = 0 ∧ snd.ready_to_play = false := by
  obtain ⟨sounds, w, p⟩ := g
  match sounds, hstore with
  | [a, b, c], _ =>
    refine ⟨rfl, ?_⟩
    intro snd hsnd
    have e : (free_retro_snd ⟨[a, b, c], w, p⟩).sounds =
        [sound_free a, sound_free b, sound_free c] := rfl
    rw [e] at hsnd
    simp only [List.mem_cons, List.mem_singleton, List.not_mem_nil, or_false] at hsnd
    rcases hsnd with hh | hh | hh <;> rw [hh] <;> exact ⟨rfl, rfl, rfl⟩

/-- One call of the interface keeps the store at `SND_LAST` clips with every clip that
is not ready in state `ST_OFF` with cursor 0. -/
theorem step_not_ready_off (msb : Bool) (g g1 : snd_globals) (c : snd_call)
    (hinv : g.sounds.length = SND_LAST ∧
      ∀ snd ∈ g.sounds, snd.ready_to_play = false → snd.state = ST_OFF ∧ snd.sample_pos = 0)
    (hrun : c.run msb g = some g1) :
    g1.sounds.length = SND_LAST ∧
      ∀ snd ∈ g1.sounds, snd.ready_to_play = false →
        snd.state = ST_OFF ∧ snd.sample_pos = 0 := by
  obtain ⟨hlen, hall⟩ := hinv
  cases c with
  | init m a s =>
    simp only [snd_call.run] at hrun
    cases hi : init_retro_snd msb m a g s with
    | none => rw [hi] at hrun; cases hrun
    | some res =>
      obtain ⟨b, g2⟩ := res
      rw [hi] at hrun
      simp only [Option.map_some', Option.some.injEq] at hrun
      rw [← hrun]
      obtain ⟨k1, k2, _⟩ := init_retro_snd_store msb m a g g2 s b hi
      exact ⟨k1, fun snd hsnd hr => ⟨(k2 snd hsnd).1 hr, (k2 snd hsnd).2.1⟩⟩
  | free =>
    simp only [snd_call.run, Option.some.injEq] at hrun
    rw [← hrun]
    obtain ⟨k1, k2⟩ := free_retro_snd_store g hlen
    exact ⟨k1, fun snd hsnd _ => ⟨(k2 snd hsnd).1, (k2 snd hsnd).2.1⟩⟩
  | cmd t st =>
    simp only [snd_call.run] at hrun
    cases hcmd : retro_snd_cmd g.sounds t st with
    | none => rw [hcmd] at hrun; cases hrun
    | some sounds1 =>
      rw [hcmd] at hrun
      simp only [Option.map_some', Option.some.injEq] at hrun
      rw [← hrun]
      rcases retro_snd_cmd_some g.sounds sounds1 t st hcmd with e | ⟨n, snd, hn, hr, e⟩
      · rw [e]; exact ⟨hlen, hall⟩
      · rw [e]
        refine ⟨by rw [List.length_set]; exact hlen, fun s hs hnr => ?_⟩
        rcases List.mem_or_eq_of_mem_set hs with h1 | h1
        · exact hall s h1 hnr
        · rw [h1] at hnr
          simp only [hr] at hnr
          cases hnr
  | batch buf =>
    simp only [snd_call.run, Option.some.injEq] at hrun
    rw [← hrun]
    simp only []
    rw [retro_snd_mixer_batch_eq_list msb _ _ buf hlen]
    refine ⟨by rw [length_fst_mixer_batch_list]; exact hlen, ?_⟩
    apply forall_mixer_batch_list msb _ _ _ g.sounds buf hall
    intro snd out hP hact hnr
    rw [ready_mix_audio_batch] at hnr
    exact absurd (hP hnr).1 hact
  | sample l r =>
    simp only [snd_call.run, Option.some.injEq] at hrun
    rw [← hrun]
    simp only []
    rw [retro_snd_mixer_sample_eq_list msb _ _ l r hlen]
    refine ⟨by rw [length_fst_mixer_sample_list]; exact hlen, ?_⟩
    apply forall_mixer_sample_list msb _ _ _ g.sounds l r hall
    intro snd l1 r1 hP hact hnr
    rw [ready_mix_audio_sample] at hnr
    exact absurd (hP hnr).1 hact

theorem mixer_batch_list_skip_off (msb : Bool) (W : Int) (sounds : List retro_guisnd_t)
    (out : List Int) (n : Nat) (snd snd1 : retro_guisnd_t)
    (h : sounds.get? n = some snd) (hoff : snd.state = ST_OFF) (hoff1 : snd1.state = ST_OFF) :
    (mixer_batch_list msb W sounds out).1.get? n = some snd ∧
    (mixer_batch_list msb W (sounds.set n snd1) out).2 =
      (mixer_batch_list msb W sounds out).2 := by
  induction sounds generalizing out n with
  | nil => simp at h
  | cons hd tl ih =>
    cases n with
    | zero =>
      simp only [List.get?_cons_zero, Option.some.injEq] at h
      subst h
      simp only [List.set_cons_zero]
      unfold mixer_batch_list
      rw [if_neg (by simp [hoff]), if_neg (by simp [hoff1])]
      exact ⟨rfl, rfl⟩
    | succ n =>
      simp only [List.get?_cons_succ] at h
      simp only [List.set_cons_succ]
      unfold mixer_batch_list
      split_ifs
      · exact ⟨(ih _ n h).1, (ih _ n h).2⟩
      · exact ⟨(ih _ n h).1, (ih _ n h).2⟩

theorem mixer_sample_list_skip_off (msb : Bool) (W : Int) (sounds : List retro_guisnd_t)
    (l r : Int) (n : Nat) (snd snd1 : retro_guisnd_t)
    (h : sounds.get? n = some snd) (hoff : snd.state = ST_OFF) (hoff1 : snd1.state = ST_OFF) :
    (mixer_sample_list msb W sounds l r).1.get? n = some snd ∧
    (mixer_sample_list msb W (sounds.set n snd1) l r).2 =
      (mixer_sample_list msb W sounds l r).2 := by
  induction sounds generalizing l r n with
  | nil => simp at h
  | cons hd tl ih =>
    cases n with
    | zero =>
      simp only [List.get?_cons_zero, Option.some.injEq] at h
      subst h
      simp only [List.set_cons_zero]
      unfold mixer_sample_list
      rw [if_neg (by simp [hoff]), if_neg (by simp [hoff1])]
      exact ⟨rfl, rfl⟩
    | succ n =>
      simp only [List.get?_cons_succ] at h
      simp only [List.set_cons_succ]
      unfold mixer_sample_list
      split_ifs
      · exact ⟨(ih _ _ n h).1, (ih _ _ n h).2⟩
      · exact ⟨(ih _ _ n h).1, (ih _ _ n h).2⟩
theorem mixer_batch_list_width_zero (msb : Bool) (sounds : List retro_guisnd_t)
    (buf : List Int) : (mixer_batch_list msb 0 sounds buf).2 = buf := by
  have hz : ∀ (snd : retro_guisnd_t) (b : List Int), (mix_audio_batch msb 0 b snd).2 = b := by
    intro snd b
    unfold mix_audio_batch mix_audio_batch_frames
    have e : to_unsigned 0 = 0 := by decide
    rw [e]
    split_ifs <;> rfl
  induction sounds generalizing buf with
  | nil => rfl
  | cons hd tl ih =>
    unfold mixer_batch_list
    split_ifs
    · show (mixer_batch_list msb 0 tl (mix_audio_batch msb 0 buf hd).2).2 = buf
      rw [ih, hz]
    · exact ih buf

/-- One playback call keeps the batch width, and keeps every clip not ready when no
clip was ready before. -/
theorem playback_step_not_ready (msb : Bool) (g g1 : snd_globals) (c : snd_call)
    (hlen : g.sounds.length = SND_LAST)
    (hc : c.is_playback = true) (hrun : c.run msb g = some g1) :
    g1.snd_buffer_size = g.snd_buffer_size ∧
    ((∀ snd ∈ g.sounds, snd.ready_to_play = false) →
      ∀ snd ∈ g1.sounds, snd.ready_to_play = false) := by
  cases c with
  | init m a s => cases hc
  | free => cases hc
  | cmd t st =>
    simp only [snd_call.run] at hrun
    cases hcmd : retro_snd_cmd g.sounds t st with
    | none => rw [hcmd] at hrun; cases hrun
    | some sounds1 =>
      rw [hcmd] at hrun
      simp only [Option.map_some', Option.some.injEq] at hrun
      rw [← hrun]
      refine ⟨rfl, fun hall => ?_⟩
      rcases retro_snd_cmd_some g.sounds sounds1 t st hcmd with e | ⟨n, snd, hn, hr, _⟩
      · rw [e]; exact hall
      · have := hall snd (List.mem_iff_get?.2 ⟨n, hn⟩)
        rw [hr] at this
        cases this
  | batch buf =>
    simp only [snd_call.run, Option.some.injEq] at hrun
    rw [← hrun]
    refine ⟨rfl, fun hall => ?_⟩
    simp only []
    rw [retro_snd_mixer_batch_eq_list msb _ _ buf hlen]
    apply forall_mixer_batch_list msb _ _ _ g.sounds buf hall
    intro snd out hP _
    rw [ready_mix_audio_batch]
    exact hP
  | sample l r =>
    simp only [snd_call.run, Option.some.injEq] at hrun
    rw [← hrun]
    refine ⟨rfl, fun hall => ?_⟩
    simp only []
    rw [retro_snd_mixer_sample_eq_list msb _ _ l r hlen]
    apply forall_mixer_sample_list msb _ _ _ g.sounds l r hall
    intro snd l1 r1 hP _
    rw [ready_mix_audio_sample]
    exact hP

/-! ### The claims -/

/-- C1 (counterexample): a looped clip shorter than the batch width is read past its
block. After a successful init with three clips of 3 samples in blocks of 6 bytes and
an output buffer of 16 bytes (batch width 4), slot 0 is started in loop mode. The store
and a buffer of 4 zeroed frames meet every premise of the claim and the clip is mixed
from cursor 0, but the loop of `mix_audio_batch` reads it at the byte offsets 0, 2, 4
and 6: the clip has no source sample of index 3 for frame 3. What the frame receives is
not fixed by the clip's three samples: it is 0 with nothing behind the block and -21846
for the same clip with the bytes 170, 170 behind its samples. -/
theorem batch_reads_past_short_looped_clip :
    ((init_retro_snd false (fun _ => malloc_zeroed) demo_assets fresh_globals 16).bind
      fun res => (run_session false res.2 [.cmd 0 ST_LOOP]).map
        fun g => (res.1, g.snd_buffer_size, g.sounds)) =
      some (true, 4, [demo_clip ST_LOOP 0, demo_clip ST_OFF 0, demo_clip ST_OFF 0]) ∧
    [demo_clip ST_LOOP 0, demo_clip ST_OFF 0, demo_clip ST_OFF 0].length = SND_LAST ∧
    batch_mixed 4 (demo_clip ST_LOOP 0) ∧
    batch_start 4 (demo_clip ST_LOOP 0) = 0 ∧
    mix_audio_batch_reads 4 (demo_clip ST_LOOP 0) = [0, 2, 4, 6] ∧
    (raw_bytes (demo_clip ST_LOOP 0)).length = 6 ∧
    clip_sample false (demo_clip ST_LOOP 0) (batch_start 4 (demo_clip ST_LOOP 0) + 3) = none ∧
    (retro_snd_mixer_batch false 4
      [demo_clip ST_LOOP 0, demo_clip ST_OFF 0, demo_clip ST_OFF 0]
      [0, 0, 0, 0, 0, 0, 0, 0]).2 = [10, 10, 20, 20, 30, 30, 0, 0] ∧
    (retro_snd_mixer_batch false 4
      [{ demo_clip ST_LOOP 0 with rawsamples := some [10, 0, 20, 0, 30, 0, 170, 170] },
        demo_clip ST_OFF 0, demo_clip ST_OFF 0]
      [0, 0, 0, 0, 0, 0, 0, 0]).2 = [10, 10, 20, 20, 30, 30, -21846, -21846] := by
  decide

/-- C1 (amended): batch mixing is additive and does not saturate, for a width that
every mixed clip can serve. Take a store of `SND_LAST` clips whose cursors stay clear
of the `unsigned int` limit, a width `W` and a buffer of `W` stereo frames holding
16-bit values, such that every clip mixed in this tick holds at least `W` samples
(`W ≤ samples_tot`) and has its `samples_tot` samples inside its block. Then after
`retro_snd_mixer_batch` both samples of frame `i` equal their value before the call
plus the sum, over the clips mixed in this tick, of the clip's source sample at its
(possibly rewound) cursor plus `i`, reduced to 16 bits by wrap-around, and each of
these source samples is a sample of the clip, of index below `samples_tot` and read
inside the block; the buffer keeps its length and is unchanged when no clip is
active. -/
theorem retro_snd_mixer_batch_additive (msb : Bool) (W : Nat)
    (sounds : List retro_guisnd_t) (out : List Int)
    (hstore : sounds.length = SND_LAST)
    (hrange : ∀ snd ∈ sounds, snd.sample_pos + W < 2147483648)
    (hwidth : ∀ snd ∈ sounds, batch_mixed W snd → W ≤ snd.samples_tot)
    (hblock : ∀ snd ∈ sounds, batch_mixed W snd →
      AUDIO_BYTES * snd.samples_tot ≤ (raw_bytes snd).length)
    (hlen : out.length = 2 * W)
    (h16 : ∀ x ∈ out, -32768 ≤ x ∧ x ≤ 32767) :
    (∀ i, i < W →
      (retro_snd_mixer_batch msb (W : Int) sounds out).2.getD (2 * i) 0 =
          wrap16 (out.getD (2 * i) 0 + (sounds.map (batch_share msb W i)).sum) ∧
      (retro_snd_mixer_batch msb (W : Int) sounds out).2.getD (2 * i + 1) 0 =
          wrap16 (out.getD (2 * i + 1) 0 + (sounds.map (batch_share msb W i)).sum) ∧
      (∀ snd ∈ sounds, batch_mixed W snd →
        clip_sample msb snd (batch_start W snd + i) = some (batch_share msb W i snd))) ∧
    (retro_snd_mixer_batch msb (W : Int) sounds out).2.length = out.length ∧
    ((∀ snd ∈ sounds, snd.state = ST_OFF) →
      (retro_snd_mixer_batch msb (W : Int) sounds out).2 = out) := by
  rw [retro_snd_mixer_batch_eq_list msb W sounds out hstore]
  have hget : ∀ j, j < 2 * W → -32768 ≤ out.getD j 0 ∧ out.getD j 0 ≤ 32767 := by
    intro j hj
    have hj2 : j < out.length := by omega
    rw [List.getD_eq_getElem _ _ hj2]
    exact h16 _ (List.getElem_mem _)
  refine ⟨fun i hi => ⟨?_, ?_, fun snd hs hm => ?_⟩,
    length_mixer_batch_list msb W sounds out, fun hoff => ?_⟩
  · have h := getD_mixer_batch_list msb W sounds out hrange (by omega) hget (2 * i) (by omega)
    rw [h]
    have h2 : 2 * i / 2 = i := by omega
    rw [h2]
  · have h := getD_mixer_batch_list msb W sounds out hrange (by omega) hget (2 * i + 1)
      (by omega)
    rw [h]
    have h2 : (2 * i + 1) / 2 = i := by omega
    rw [h2]
  · have hw := hwidth snd hs hm
    have hb := hblock snd hs hm
    have hin : batch_start W snd + i < snd.samples_tot := by
      unfold batch_start
      split_ifs with hgt
      · omega
      · omega
    have hA : AUDIO_BYTES = 2 := rfl
    rw [hA] at hb
    unfold clip_sample batch_share
    rw [if_pos hm, if_pos ⟨hin, by rw [hA]; omega⟩]
  · rw [mixer_batch_list_all_off msb W sounds out hoff]

/-- C1 at a concrete store: a one-shot and a rewinding looped clip of 3 samples, mixed
with width 3, both add 30 to the last sample 32767 of frame 2, which wraps to -32709. -/
theorem retro_snd_mixer_batch_additive_witness :
    (retro_snd_mixer_batch false 3 [demo_clip ST_ON 0, idle_clip, demo_clip ST_LOOP 3]
      [1, 2, 3, 4, 5, 32767]).2.getD 5 0 = -32709 :=
  ((retro_snd_mixer_batch_additive false 3 [demo_clip ST_ON 0, idle_clip, demo_clip ST_LOOP 3]
    [1, 2, 3, 4, 5, 32767] (by decide) (by decide) (by decide) (by decide) (by decide)
    (by decide)).1 2 (by decide)).2.1.trans (by decide)

/-- C2: a one-shot clip never mixes a partial tail in the batch path. For a clip in
state `ST_ON` (its cursor and the width clear of the `int` limit) and a buffer of `W`
frames: when cursor + `W` exceeds `samples_tot`, `mix_audio_batch` leaves the buffer as
it was and the clip stopped (state `ST_OFF`, cursor 0, nothing else changed); when
cursor + `W` is at most `samples_tot`, it adds the `W` source samples from the cursor
on to both channels of their frames, advances the cursor by exactly `W` and leaves the
state `ST_ON`. -/
theorem mix_audio_batch_one_shot (msb : Bool) (W : Nat) (out : List Int)
    (snd : retro_guisnd_t) (hst : snd.state = ST_ON)
    (hrange : snd.sample_pos + W < 2147483648) (hlen : out.length = 2 * W) :
    (snd.sample_pos + W > snd.samples_tot →
      (mix_audio_batch msb (W : Int) out snd).2 = out ∧
      (mix_audio_batch msb (W : Int) out snd).1 =
        { snd with state := ST_OFF, sample_pos := 0 }) ∧
    (snd.sample_pos + W ≤ snd.samples_tot →
      (∀ i, i < W →
        (mix_audio_batch msb (W : Int) out snd).2.getD (2 * i) 0 =
            wrap16 (out.getD (2 * i) 0 + sample_at msb snd (snd.sample_pos + i)) ∧
        (mix_audio_batch msb (W : Int) out snd).2.getD (2 * i + 1) 0 =
            wrap16 (out.getD (2 * i + 1) 0 + sample_at msb snd (snd.sample_pos + i))) ∧
      (mix_audio_batch msb (W : Int) out snd).2.length = out.length ∧
      (mix_audio_batch msb (W : Int) out snd).1 =
        { snd with sample_pos := snd.sample_pos + W } ∧
      (mix_audio_batch msb (W : Int) out snd).1.state = ST_ON) := by
  have hact : snd.state ≠ ST_OFF := by rw [hst]; decide
  constructor
  · intro h
    rw [mix_audio_batch_eq msb W out snd (by omega) (by omega), if_pos ⟨h, hst⟩]
    exact ⟨rfl, rfl⟩
  · intro h
    have hm : batch_mixed W snd := ⟨hact, fun hh => by omega⟩
    have hs : batch_start W snd = snd.sample_pos := by
      unfold batch_start; rw [if_neg (by omega)]
    refine ⟨fun i hi => ⟨?_, ?_⟩, length_mix_audio_batch msb W out snd, ?_, ?_⟩
    · rw [getD_mix_audio_batch msb W out snd (by omega) (by omega) (by omega) hact (2 * i)
        (by omega), if_pos hm, hs]
      have h2 : 2 * i / 2 = i := by omega
      rw [h2]
    · rw [getD_mix_audio_batch msb W out snd (by omega) (by omega) (by omega) hact
        (2 * i + 1) (by omega), if_pos hm, hs]
      have h2 : (2 * i + 1) / 2 = i := by omega
      rw [h2]
    · rw [mix_audio_batch_eq msb W out snd (by omega) (by omega), if_neg (by omega), hs]
    · rw [mix_audio_batch_eq msb W out snd (by omega) (by omega), if_neg (by omega)]
      exact hst

/-- C2 at the clip 10, 20, 30 with width 3: from cursor 1 the clip is stopped, from
cursor 0 the whole batch is mixed and the cursor moves to 3. -/
theorem mix_audio_batch_one_shot_witness :
    (mix_audio_batch false 3 [0, 0, 0, 0, 0, 0] (demo_clip ST_ON 1)).1 = demo_clip ST_OFF 0 ∧
    (mix_audio_batch false 3 [1, 2, 3, 4, 5, 6] (demo_clip ST_ON 0)).1 = demo_clip ST_ON 3 :=
  ⟨((mix_audio_batch_one_shot false 3 [0, 0, 0, 0, 0, 0] (demo_clip ST_ON 1) rfl (by decide)
      (by decide)).1 (by decide)).2,
    ((mix_audio_batch_one_shot false 3 [1, 2, 3, 4, 5, 6] (demo_clip ST_ON 0) rfl (by decide)
      (by decide)).2 (by decide)).2.2.1⟩

/-- C3: looped batch playback rewinds and mixes in the same tick. In a store whose only
active clip is looped, with `samples_tot = N`, cursor 0 and `1 ≤ W ≤ N`, the `k`-th
successive call of `retro_snd_mixer_batch` (`k ≥ 1`) adds to both samples of frame `i`
the source sample of index `((k - 1) mod (N / W)) * W + i`, and the clip is in state
`ST_LOOP` after the call. -/
theorem looped_batch_kth_call (msb : Bool) (N W : Nat) (pre post : List retro_guisnd_t)
    (snd : retro_guisnd_t) (out : List Int)
    (hstore : (pre ++ snd :: post).length = SND_LAST)
    (hpre : ∀ s ∈ pre, s.state = ST_OFF) (hpost : ∀ s ∈ post, s.state = ST_OFF)
    (hst : snd.state = ST_LOOP) (hN : snd.samples_tot = N) (hpos : snd.sample_pos = 0)
    (hW1 : 1 ≤ W) (hW2 : W ≤ N) (hN2 : N < 2147483648) (hlen : out.length = 2 * W)
    (k : Nat) (hk : 1 ≤ k) :
    (∀ i, i < W →
      (batch_calls msb (W : Int) k (pre ++ snd :: post, out)).2.getD (2 * i) 0 =
        wrap16 ((batch_calls msb (W : Int) (k - 1) (pre ++ snd :: post, out)).2.getD (2 * i) 0
          + sample_at msb snd (((k - 1) % (N / W)) * W + i)) ∧
      (batch_calls msb (W : Int) k (pre ++ snd :: post, out)).2.getD (2 * i + 1) 0 =
        wrap16
          ((batch_calls msb (W : Int) (k - 1) (pre ++ snd :: post, out)).2.getD (2 * i + 1) 0
          + sample_at msb snd (((k - 1) % (N / W)) * W + i))) ∧
    (∃ snd1, (batch_calls msb (W : Int) k (pre ++ snd :: post, out)).1 = pre ++ snd1 :: post ∧
      snd1.state = ST_LOOP) := by
  obtain ⟨m, rfl⟩ : ∃ m, k = m + 1 := ⟨k - 1, by omega⟩
  simp only [Nat.add_sub_cancel]
  rw [batch_calls_single msb W pre post snd out hstore hpre hpost (m + 1),
    batch_calls_single msb W pre post snd out hstore hpre hpost m]
  simp only []
  obtain ⟨j1, _, _, _, _, _⟩ :=
    iterate_batch_tick_looped msb N W snd out hst hN hpos hW1 hW2 hN2 (m + 1)
  obtain ⟨i1, i2, i3, i4, i5, i6⟩ :=
    iterate_batch_tick_looped msb N W snd out hst hN hpos hW1 hW2 hN2 m
  refine ⟨fun i hi => ?_, ⟨_, rfl, j1⟩⟩
  rw [Function.iterate_succ_apply']
  generalize (batch_tick msb (W : Int))^[m] (snd, out) = st at *
  have hact : st.1.state ≠ ST_OFF := by rw [i1]; decide
  have hm : batch_mixed W st.1 := ⟨hact, fun hh => by rw [i1] at hh; exact absurd hh.1 (by decide)⟩
  have hsa : ∀ n, sample_at msb st.1 n = sample_at msb snd n := by
    intro n; unfold sample_at raw_bytes; rw [i3]
  unfold batch_tick
  rw [if_pos hact]
  constructor
  · rw [getD_mix_audio_batch msb W st.2 st.1 (by omega) (by omega) (by omega) hact (2 * i)
      (by omega), if_pos hm, i5, hsa]
    have h2 : 2 * i / 2 = i := by omega
    rw [h2]
  · rw [getD_mix_audio_batch msb W st.2 st.1 (by omega) (by omega) (by omega) hact
      (2 * i + 1) (by omega), if_pos hm, i5, hsa]
    have h2 : (2 * i + 1) / 2 = i := by omega
    rw [h2]

/-- C3 at the clip 10, 20, 30 with width 3: the second call adds sample 1, which is
20, to the right sample of frame 1. -/
theorem looped_batch_kth_call_witness :
    (batch_calls false 3 2 ([demo_clip ST_LOOP 0, idle_clip, idle_clip],
        [0, 0, 0, 0, 0, 0])).2.getD 3 0 =
      wrap16 ((batch_calls false 3 1 ([demo_clip ST_LOOP 0, idle_clip, idle_clip],
        [0, 0, 0, 0, 0, 0])).2.getD 3 0 + 20) :=
  ((looped_batch_kth_call false 3 3 [] [idle_clip, idle_clip] (demo_clip ST_LOOP 0)
    [0, 0, 0, 0, 0, 0] (by decide) (by decide) (by decide) rfl rfl rfl (by decide) (by decide)
    (by decide) (by decide) 2 (by decide)).1 1 (by decide)).2

/-- The spec's looped scenario: the clip 10, 20, 30 in state `ST_LOOP`, width 3; two
successive calls of `retro_snd_mixer_batch` each add the whole triple to both channels
and the clip is in state `ST_LOOP` after both. -/
theorem looped_scenario_two_calls :
    batch_calls false 3 1 ([demo_clip ST_LOOP 0, idle_clip, idle_clip], [0, 0, 0, 0, 0, 0]) =
      ([demo_clip ST_LOOP 3, idle_clip, idle_clip], [10, 10, 20, 20, 30, 30]) ∧
    batch_calls false 3 2 ([demo_clip ST_LOOP 0, idle_clip, idle_clip], [0, 0, 0, 0, 0, 0]) =
      ([demo_clip ST_LOOP 3, idle_clip, idle_clip], [20, 20, 40, 40, 60, 60]) := by
  decide

/-- C4 (the code at the failing input): with batch width 3, a one-shot clip of three
samples at cursor 1 has `cursor + 1 ≤ samples_tot`, yet `mix_audio_sample` stops it
and adds nothing, because the end-of-buffer test uses `snd_buffer_size`; with width 1
the same call adds sample 1 and advances the cursor to 2. -/
theorem mix_audio_sample_tests_batch_width :
    mix_audio_sample false 3 (demo_clip ST_ON 1) 5 6 = (demo_clip ST_OFF 0, 5, 6) ∧
    mix_audio_sample false 1 (demo_clip ST_ON 1) 5 6 = (demo_clip ST_ON 2, 25, 26) := by
  decide

/-- C5 (counterexample): a one-shot clip of `N = 1` sample at cursor 0. With batch
width 1 the clip is still in state `ST_ON` after `N` calls of `retro_snd_mixer_sample`
and stopped by call `N + 1`; with batch width 0 it is still in state `ST_ON` after
`N + 1` calls. -/
theorem one_shot_sample_not_off_after_N :
    ((sample_calls false 1 1
      ([short_clip ST_ON 0, idle_clip, idle_clip], 0, 0)).1.map
        fun s => s.state) = [ST_ON, ST_OFF, ST_OFF] ∧
    ((sample_calls false 1 2
      ([short_clip ST_ON 0, idle_clip, idle_clip], 0, 0)).1.map
        fun s => s.state) = [ST_OFF, ST_OFF, ST_OFF] ∧
    ((sample_calls false 0 2
      ([short_clip ST_ON 0, idle_clip, idle_clip], 0, 0)).1.map
        fun s => s.state) = [ST_ON, ST_OFF, ST_OFF] := by
  decide

/-- C5 (amended): in a store whose only active clip is a one-shot clip with
`samples_tot = N` and cursor 0, for every batch width `W ≥ 1`, the clip is stopped
(state `ST_OFF`, cursor 0) after `N + 1` successive calls of `retro_snd_mixer_sample`
and after any larger number of calls; and whenever the clip is in state `ST_OFF` after
some number of calls, a further call leaves the store and the left and right samples
unchanged. -/
theorem one_shot_sample_off_after_succ_N (msb : Bool) (N W : Nat)
    (pre post : List retro_guisnd_t) (snd : retro_guisnd_t) (l r : Int)
    (hstore : (pre ++ snd :: post).length = SND_LAST)
    (hpre : ∀ s ∈ pre, s.state = ST_OFF) (hpost : ∀ s ∈ post, s.state = ST_OFF)
    (hst : snd.state = ST_ON) (hN : snd.samples_tot = N) (hpos : snd.sample_pos = 0)
    (hW1 : 1 ≤ W) (hW : W < 2147483648) (hN2 : N < 2147483648) :
    (∀ m, N + 1 ≤ m →
      (sample_calls msb (W : Int) m (pre ++ snd :: post, l, r)).1 =
        pre ++ { snd with state := ST_OFF, sample_pos := 0 } :: post) ∧
    (∀ m snd1, (sample_calls msb (W : Int) m (pre ++ snd :: post, l, r)).1 =
        pre ++ snd1 :: post → snd1.state = ST_OFF →
      ∀ l1 r1 : Int,
        retro_snd_mixer_sample msb (W : Int)
            (sample_calls msb (W : Int) m (pre ++ snd :: post, l, r)).1 l1 r1 =
          ((sample_calls msb (W : Int) m (pre ++ snd :: post, l, r)).1, l1, r1)) := by
  constructor
  · intro m hm
    rw [sample_calls_single msb W pre post snd l r hstore hpre hpost m]
    rcases iterate_sample_tick_one_shot msb N W snd l r hst hN hpos hW1 hW hN2 m with h | ⟨_, h⟩
    · simp only [h]
    · omega
  · intro m snd1 hoff hst1 l1 r1
    rw [hoff, retro_snd_mixer_sample_eq_list _ _ _ _ _ (by simpa using hstore)]
    apply mixer_sample_list_all_off
    intro s hs
    rcases List.mem_append.1 hs with h | h
    · exact hpre s h
    · rcases List.mem_cons.1 h with h | h
      · rw [h]; exact hst1
      · exact hpost s h

/-- C5 (amended) at the clip 10, 20, 30 with width 1: stopped after four calls. -/
theorem one_shot_sample_off_after_succ_N_witness :
    (sample_calls false 1 4 ([idle_clip, demo_clip ST_ON 0, idle_clip], 7, 8)).1 =
      [idle_clip, demo_clip ST_OFF 0, idle_clip] :=
  (one_shot_sample_off_after_succ_N false 3 1 [idle_clip] [idle_clip] (demo_clip ST_ON 0) 7 8
    (by decide) (by decide) (by decide) rfl rfl rfl (by decide) (by decide)
    (by decide)).1 4 (by decide)

/-- C6: looped playback never stops on its own. For every store, batch width and slot
holding a clip in state `ST_LOOP`, after every finite sequence of
`retro_snd_mixer_batch` and `retro_snd_mixer_sample` calls with no command in between,
that clip is still in state `ST_LOOP` with the same `samples_tot`, and its cursor is
`looped_cursor`, computed from the initial cursor, `samples_tot`, the batch width and
the kinds of the calls alone. -/
theorem looped_never_stops (msb : Bool) (W : Int) (sounds : List retro_guisnd_t) (n : Nat)
    (snd : retro_guisnd_t) (calls : List mixer_call) (hstore : sounds.length = SND_LAST)
    (h : sounds.get? n = some snd) (hst : snd.state = ST_LOOP) :
    ∃ snd1, (run_calls msb W sounds calls).get? n = some snd1 ∧
      snd1.state = ST_LOOP ∧
      snd1.samples_tot = snd.samples_tot ∧
      snd1.sample_pos =
        looped_cursor W snd.samples_tot snd.sample_pos (calls.map mixer_call.is_batch) := by
  induction calls generalizing sounds snd with
  | nil => exact ⟨snd, h, hst, rfl, rfl⟩
  | cons c cs ih =>
    obtain ⟨h1, h2⟩ := run_call_looped msb W sounds n snd c hstore h hst
    obtain ⟨snd1, e1, e2, e3, e4⟩ := ih (run_call msb W sounds c) _ h1 h2 hst
    exact ⟨snd1, e1, e2, e3, e4⟩

/-- C6 at the clip 10, 20, 30 with width 3 and a mixed sequence of four calls. -/
theorem looped_never_stops_witness :
    ((run_calls false 3 [idle_clip, demo_clip ST_LOOP 0, idle_clip]
        [.sample 1 2, .batch [0, 0, 0, 0, 0, 0], .sample 3 4, .sample 5 6]).get? 1).map
      (fun s => (s.state, s.samples_tot, s.sample_pos)) = some (ST_LOOP, 3, 1) := by
  obtain ⟨s, h1, h2, h3, h4⟩ :=
    looped_never_stops false 3 [idle_clip, demo_clip ST_LOOP 0, idle_clip] 1
      (demo_clip ST_LOOP 0) [.sample 1 2, .batch [0, 0, 0, 0, 0, 0], .sample 3 4, .sample 5 6]
      (by decide) rfl rfl
  rw [h1, Option.map_some', h2, h3, h4]
  rfl

/-- C7 (counterexample): the clip 10, 20, 30 in state `ST_ON`, width 3: one call of
`retro_snd_mixer_batch` adds the three samples to both channels, and the clip is then
still in state `ST_ON` with cursor 3, not stopped with cursor 0. -/
theorem one_shot_full_width_not_off :
    retro_snd_mixer_batch false 3 [demo_clip ST_ON 0, idle_clip, idle_clip]
        [0, 0, 0, 0, 0, 0] =
      ([demo_clip ST_ON 3, idle_clip, idle_clip], [10, 10, 20, 20, 30, 30]) ∧
    ¬ ((demo_clip ST_ON 3).state = ST_OFF ∧ (demo_clip ST_ON 3).sample_pos = 0) := by
  decide

/-- C7 (amended): in a store whose only active clip is a one-shot clip with cursor 0
and `samples_tot` equal to the batch width `W`, one call of `retro_snd_mixer_batch`
adds each source sample to both channels of its frame and leaves the clip in state
`ST_ON` with cursor `W`; when `W ≥ 1` the next call leaves the buffer as it is and
stops the clip (state `ST_OFF`, cursor 0). -/
theorem one_shot_full_width_batch (msb : Bool) (W : Nat)
    (pre post : List retro_guisnd_t) (snd : retro_guisnd_t) (out : List Int)
    (hstore : (pre ++ snd :: post).length = SND_LAST)
    (hpre : ∀ s ∈ pre, s.state = ST_OFF) (hpost : ∀ s ∈ post, s.state = ST_OFF)
    (hst : snd.state = ST_ON) (hN : snd.samples_tot = W) (hpos : snd.sample_pos = 0)
    (hW : W < 2147483648) (hlen : out.length = 2 * W) :
    (∀ i, i < W →
      (retro_snd_mixer_batch msb (W : Int) (pre ++ snd :: post) out).2.getD (2 * i) 0 =
          wrap16 (out.getD (2 * i) 0 + sample_at msb snd i) ∧
      (retro_snd_mixer_batch msb (W : Int) (pre ++ snd :: post) out).2.getD (2 * i + 1) 0 =
          wrap16 (out.getD (2 * i + 1) 0 + sample_at msb snd i)) ∧
    (retro_snd_mixer_batch msb (W : Int) (pre ++ snd :: post) out).1 =
      pre ++ { snd with sample_pos := W, state := ST_ON } :: post ∧
    (1 ≤ W →
      retro_snd_mixer_batch msb (W : Int)
          (retro_snd_mixer_batch msb (W : Int) (pre ++ snd :: post) out).1
          (retro_snd_mixer_batch msb (W : Int) (pre ++ snd :: post) out).2 =
        (pre ++ { snd with state := ST_OFF, sample_pos := 0 } :: post,
          (retro_snd_mixer_batch msb (W : Int) (pre ++ snd :: post) out).2)) := by
  have hact : snd.state ≠ ST_OFF := by rw [hst]; decide
  have hm : batch_mixed W snd := ⟨hact, fun hh => by omega⟩
  have hs : batch_start W snd = 0 := by
    unfold batch_start; rw [if_neg (by omega), hpos]
  have hfst : (mix_audio_batch msb (W : Int) out snd).1 =
      { snd with sample_pos := W, state := ST_ON } := by
    rw [mix_audio_batch_eq msb W out snd (by omega) (by omega), if_neg (by omega), hs,
      Nat.zero_add]
    simp only [hst]
  have e : retro_snd_mixer_batch msb (W : Int) (pre ++ snd :: post) out =
      (pre ++ (mix_audio_batch msb (W : Int) out snd).1 :: post,
        (mix_audio_batch msb (W : Int) out snd).2) := by
    rw [retro_snd_mixer_batch_eq_list _ _ _ _ hstore,
      mixer_batch_list_single msb W pre post snd out hpre hpost]
    unfold batch_tick
    rw [if_pos hact]
  rw [e]
  refine ⟨fun i hi => ⟨?_, ?_⟩, ?_, fun hW1 => ?_⟩
  · rw [getD_mix_audio_batch msb W out snd (by omega) (by omega) (by omega) hact (2 * i)
      (by omega), if_pos hm, hs, Nat.zero_add]
    have h2 : 2 * i / 2 = i := by omega
    rw [h2]
  · rw [getD_mix_audio_batch msb W out snd (by omega) (by omega) (by omega) hact
      (2 * i + 1) (by omega), if_pos hm, hs, Nat.zero_add]
    have h2 : (2 * i + 1) / 2 = i := by omega
    rw [h2]
  · simp only [hfst]
  · simp only []
    rw [retro_snd_mixer_batch_eq_list _ _ _ _ (by simpa using hstore),
      mixer_batch_list_single msb W pre post _ _ hpre hpost]
    unfold batch_tick
    simp only []
    rw [if_pos (by rw [hfst]; simp)]
    rw [mix_audio_batch_eq msb W _ _ (by rw [hfst]; simp only []; omega)
      (by rw [hfst]; exact hW), if_pos ⟨by rw [hfst]; simp only []; omega, by rw [hfst]⟩]
    simp only [hfst, sound_stop]

/-- C7 (amended) at the clip 10, 20, 30 with width 3: after one call the clip is in
state `ST_ON` with cursor 3. -/
theorem one_shot_full_width_batch_witness :
    (retro_snd_mixer_batch false 3 [demo_clip ST_ON 0, idle_clip, idle_clip]
      [1, 2, 3, 4, 5, 6]).1 = [demo_clip ST_ON 3, idle_clip, idle_clip] :=
  (one_shot_full_width_batch false 3 [] [idle_clip, idle_clip] (demo_clip ST_ON 0)
    [1, 2, 3, 4, 5, 6] (by decide) (by decide) (by decide) rfl rfl rfl (by decide)
    (by decide)).2.1

/-- C8: for an in-range slot whose clip is ready, whatever the clip's state and cursor,
`retro_snd_cmd` sets the clip's state to `new_status`, sets its cursor to 0 when
`new_status` is `ST_OFF` and leaves it otherwise, and changes no other field of that
clip and no other clip. -/
theorem retro_snd_cmd_ready (sounds : List retro_guisnd_t) (n : Nat) (snd : retro_guisnd_t)
    (new_status : audio_status_t) (hn : n < SND_LAST) (h : sounds.get? n = some snd)
    (hready : snd.ready_to_play = true) :
    ∃ sounds1, retro_snd_cmd sounds (n : Int) new_status = some sounds1 ∧
      sounds1.length = sounds.length ∧
      sounds1.get? n = some { snd with
        state := new_status
        sample_pos := if new_status = ST_OFF then 0 else snd.sample_pos } ∧
      ∀ j, j ≠ n → sounds1.get? j = sounds.get? j := by
  have hlt : n < sounds.length := by
    rcases Nat.lt_or_ge n sounds.length with h1 | h1
    · exact h1
    · rw [List.get?_eq_none.2 h1] at h; cases h
  have hge : ¬ ((n : Int) ≥ (SND_LAST : Int)) := by omega
  have hat : sounds_at sounds (n : Int) = some snd := by
    unfold sounds_at
    rw [if_pos (by omega), Int.toNat_ofNat, h]
  unfold retro_snd_cmd
  rw [if_neg hge, hat]
  simp only [hready, Bool.not_true, Bool.false_eq_true, if_false, Int.toNat_ofNat]
  refine ⟨_, rfl, List.length_set _ _ _, ?_, fun j hj => ?_⟩
  · rw [List.get?_eq_getElem?, List.getElem?_set_self hlt]
    by_cases hs : new_status = ST_OFF
    · simp [hs]
    · simp [hs]
  · rw [List.get?_eq_getElem?, List.get?_eq_getElem?, List.getElem?_set_ne (Ne.symm hj)]

/-- C8 at slot 1 of a store: `ST_OFF` stops the looped clip and rewinds it. -/
theorem retro_snd_cmd_ready_witness :
    (retro_snd_cmd [idle_clip, demo_clip ST_LOOP 2, idle_clip] 1 ST_OFF).map
      (fun sounds1 => sounds1.get? 1) = some (some (demo_clip ST_OFF 0)) := by
  obtain ⟨s, h1, _, h3, _⟩ := retro_snd_cmd_ready [idle_clip, demo_clip ST_LOOP 2, idle_clip] 1
    (demo_clip ST_LOOP 2) ST_OFF (by decide) rfl rfl
  rw [show ((1 : Nat) : Int) = 1 from rfl] at h1
  rw [h1, Option.map_some', h3]
  rfl

/-- A command for a slot at or above `SND_LAST`, or for an in-range slot whose clip is
not ready, leaves the store as it is. -/
theorem retro_snd_cmd_ignored (sounds : List retro_guisnd_t) (snd_type : Int)
    (new_status : audio_status_t)
    (h : snd_type ≥ (SND_LAST : Int) ∨
      ∃ snd, sounds_at sounds snd_type = some snd ∧ snd.ready_to_play = false) :
    retro_snd_cmd sounds snd_type new_status = some sounds := by
  unfold retro_snd_cmd
  rcases h with h | ⟨snd, h1, h2⟩
  · rw [if_pos h]
  · by_cases hge : snd_type ≥ (SND_LAST : Int)
    · rw [if_pos hge]
    · rw [if_neg hge, h1]
      simp [h2]

/-- C9 (the code at the failing input): for the slot index `-1`, which is below
`SND_LAST`, `retro_snd_cmd` goes on to evaluate `sounds[-1].ready_to_play`, an access
outside the array, instead of returning with the store untouched. -/
theorem retro_snd_cmd_negative_slot :
    retro_snd_cmd [demo_clip ST_OFF 0, demo_clip ST_OFF 0, demo_clip ST_OFF 0] (-1) ST_ON =
      none ∧
    retro_snd_cmd [demo_clip ST_OFF 0, demo_clip ST_OFF 0, demo_clip ST_OFF 0] 3 ST_ON =
      some [demo_clip ST_OFF 0, demo_clip ST_OFF 0, demo_clip ST_OFF 0] := by
  decide

/-- C10 (counterexample): a clip that is ready before the call is still ready after
`sound_load` has rejected a two-channel header. -/
theorem sound_load_rejected_keeps_ready :
    sound_load false malloc_zeroed (demo_clip ST_OFF 0) stereo_wav 44 =
      some (false, { demo_clip ST_OFF 0 with head := WAVhead_of_bytes false stereo_wav }) ∧
    (WAVhead_of_bytes false stereo_wav).NumChannels = 2 ∧
    ¬ ({ demo_clip ST_OFF 0 with
        head := WAVhead_of_bytes false stereo_wav }.ready_to_play = false) := by
  decide

/-- C10 (amended): for every clip and every WAV buffer of at least 44 bytes whose
header has `NumChannels ≠ 1` or `BitsPerSample ≠ 16`, `sound_load` returns false and
changes nothing in the clip but the header; `ready_to_play` keeps the value it had, so
the clip is not ready after the call when it was not ready before it. -/
theorem sound_load_rejects_format (msb : Bool) (malloc : Nat → Option (List Nat))
    (snd : retro_guisnd_t) (buffer : List Nat) (buffer_size : Int)
    (hlen : 44 ≤ buffer.length)
    (hfmt : (WAVhead_of_bytes msb buffer).NumChannels ≠ 1 ∨
      (WAVhead_of_bytes msb buffer).BitsPerSample ≠ 16) :
    ∃ snd1, sound_load msb malloc snd buffer buffer_size = some (false, snd1) ∧
      snd1 = { snd with head := WAVhead_of_bytes msb buffer } ∧
      snd1.ready_to_play = snd.ready_to_play ∧
      (snd.ready_to_play = false → snd1.ready_to_play = false) := by
  refine ⟨{ snd with head := WAVhead_of_bytes msb buffer }, ?_, rfl, rfl, fun h => h⟩
  unfold sound_load
  rw [if_neg (by omega)]
  simp only []
  rw [if_pos hfmt]

/-- C10 (amended) at a zeroed slot and a two-channel header: the load fails and the
slot is not ready. -/
theorem sound_load_rejects_format_witness :
    (sound_load false malloc_zeroed idle_clip stereo_wav 44).map
      (fun res => (res.1, res.2.ready_to_play)) = some (false, false) := by
  obtain ⟨s, h1, _, _, h4⟩ := sound_load_rejects_format false malloc_zeroed idle_clip stereo_wav
    44 (by decide) (by decide)
  rw [h1, Option.map_some', h4 rfl]

/-- C12 (the code at the failing inputs): with a header declaring a data chunk of 2
bytes and `buffer_size = 50`, the block is allocated with 2 bytes and `memcpy` is
asked to copy `50 - 44 = 6` bytes into it, which leaves the block. With a header
declaring 6 bytes and `buffer_size = 46`, only 2 bytes are copied and the samples 1
and 2 of the clip are what the allocator left in the block. -/
theorem sound_load_copies_buffer_size :
    (WAVhead_of_bytes false overlong_wav).Subchunk2Size = 2 ∧
    memcpy (List.replicate 2 0) overlong_wav 44 (50 - 44) = none ∧
    sound_load false malloc_zeroed idle_clip overlong_wav 50 = none ∧
    sound_load false malloc_filled idle_clip truncated_wav 46 =
      some (true,
        { demo_clip ST_OFF 0 with rawsamples := some [10, 0, 255, 255, 255, 255] }) := by
  decide

/-- C13: initialization is all-or-nothing on the three assets. `init_retro_snd` returns
true exactly when the three loads (motor, read, seek, each into a zeroed slot) return
true; when it returns true the store has `SND_LAST` slots, every slot is ready with
state `ST_OFF` and cursor 0, and the batch width is the buffer size divided by 2 and
by 2 again with C's integer division (for a size that is not negative, `size / 2 / 2`). -/
theorem init_retro_snd_all_or_nothing (msb : Bool) (malloc : Nat → Nat → Option (List Nat))
    (assets : snd_assets) (g : snd_globals) (size : Int) :
    ((∃ g1, init_retro_snd msb malloc assets g size = some (true, g1)) ↔
      ∃ c0 c1 c2,
        sound_load msb (malloc SND_FDCMOTOR) idle_clip assets.motor assets.motor_size =
          some (true, c0) ∧
        sound_load msb (malloc SND_FDCREAD) idle_clip assets.read_drive assets.read_size =
          some (true, c1) ∧
        sound_load msb (malloc SND_FDCSEEK) idle_clip assets.seek_drive assets.seek_size =
          some (true, c2)) ∧
    (∀ g1, init_retro_snd msb malloc assets g size = some (true, g1) →
      g1.sounds.length = SND_LAST ∧
      (∀ snd ∈ g1.sounds,
        snd.ready_to_play = true ∧ snd.state = ST_OFF ∧ snd.sample_pos = 0) ∧
      g1.snd_buffer_size = (size.tdiv 2).tdiv 2 ∧
      (0 ≤ size → g1.snd_buffer_size = size / 2 / 2)) := by
  rw [init_retro_snd_eq]
  have key : ∀ g1,
      (match sound_load msb (malloc SND_FDCMOTOR) idle_clip assets.motor
          assets.motor_size with
        | none => none
        | some (false, c0) => some (false, { g with sounds := [c0, idle_clip, idle_clip] })
        | some (true, c0) =>
          match sound_load msb (malloc SND_FDCREAD) idle_clip assets.read_drive
              assets.read_size with
          | none => none
          | some (false, c1) => some (false, { g with sounds := [c0, c1, idle_clip] })
          | some (true, c1) =>
            match sound_load msb (malloc SND_FDCSEEK) idle_clip assets.seek_drive
                assets.seek_size with
            | none => none
            | some (false, c2) => some (false, { g with sounds := [c0, c1, c2] })
            | some (true, c2) =>
              some (true,
                ({ sounds := [c0, c1, c2]
                   snd_buffer_size := (size.tdiv 2).tdiv 2
                   snd_buffer_set := true } : snd_globals))) = some (true, g1) →
      ∃ c0 c1 c2,
        sound_load msb (malloc SND_FDCMOTOR) idle_clip assets.motor assets.motor_size =
          some (true, c0) ∧
        sound_load msb (malloc SND_FDCREAD) idle_clip assets.read_drive assets.read_size =
          some (true, c1) ∧
        sound_load msb (malloc SND_FDCSEEK) idle_clip assets.seek_drive assets.seek_size =
          some (true, c2) ∧
        g1 = { sounds := [c0, c1, c2]
               snd_buffer_size := (size.tdiv 2).tdiv 2
               snd_buffer_set := true } := by
    intro g1 h
    cases h0 : sound_load msb (malloc SND_FDCMOTOR) idle_clip assets.motor
        assets.motor_size with
    | none => rw [h0] at h; cases h
    | some r0 =>
      obtain ⟨b0, c0⟩ := r0
      cases b0 with
      | false => rw [h0] at h; simp at h
      | true =>
        rw [h0] at h
        simp only [] at h
        cases h1 : sound_load msb (malloc SND_FDCREAD) idle_clip assets.read_drive
            assets.read_size with
        | none => rw [h1] at h; cases h
        | some r1 =>
          obtain ⟨b1, c1⟩ := r1
          cases b1 with
          | false => rw [h1] at h; simp at h
          | true =>
            rw [h1] at h
            simp only [] at h
            cases h2 : sound_load msb (malloc SND_FDCSEEK) idle_clip assets.seek_drive
                assets.seek_size with
            | none => rw [h2] at h; cases h
            | some r2 =>
              obtain ⟨b2, c2⟩ := r2
              cases b2 with
              | false => rw [h2] at h; simp at h
              | true =>
                rw [h2] at h
                simp only [Option.some.injEq, Prod.mk.injEq, true_and] at h
                exact ⟨c0, c1, c2, rfl, rfl, rfl, h.symm⟩
  refine ⟨⟨fun ⟨g1, h⟩ => ?_, fun ⟨c0, c1, c2, h0, h1, h2⟩ => ?_⟩, fun g1 h => ?_⟩
  · obtain ⟨c0, c1, c2, h0, h1, h2, _⟩ := key g1 h
    exact ⟨c0, c1, c2, h0, h1, h2⟩
  · rw [h0]
    simp only []
    rw [h1]
    simp only []
    rw [h2]
    exact ⟨_, rfl⟩
  · obtain ⟨c0, c1, c2, h0, h1, h2, e⟩ := key g1 h
    obtain ⟨_, _, _, _, _, _, _, d0⟩ := sound_load_true _ _ _ _ _ _ h0
    obtain ⟨_, _, _, _, _, _, _, d1⟩ := sound_load_true _ _ _ _ _ _ h1
    obtain ⟨_, _, _, _, _, _, _, d2⟩ := sound_load_true _ _ _ _ _ _ h2
    rw [e]
    refine ⟨rfl, ?_, rfl, fun hs => ?_⟩
    · intro snd hsnd
      simp only [List.mem_cons, List.mem_singleton, List.not_mem_nil, or_false] at hsnd
      rcases hsnd with hh | hh | hh
      · rw [hh, d0]; exact ⟨rfl, rfl, rfl⟩
      · rw [hh, d1]; exact ⟨rfl, rfl, rfl⟩
      · rw [hh, d2]; exact ⟨rfl, rfl, rfl⟩
    · simp only []
      rw [Int.tdiv_eq_ediv hs (by decide),
        Int.tdiv_eq_ediv (Int.ediv_nonneg hs (by decide)) (by decide)]

/-- C13 at three copies of `mono_wav` and an output buffer of 16 bytes: the init
returns true and the batch width is 4. -/
theorem init_retro_snd_all_or_nothing_witness :
    (init_retro_snd false (fun _ => malloc_zeroed) demo_assets fresh_globals 16).map
      (fun res => (res.1, res.2.snd_buffer_size)) = some (true, 4) := by
  obtain ⟨g1, h⟩ := (init_retro_snd_all_or_nothing false (fun _ => malloc_zeroed) demo_assets
    fresh_globals 16).1.2
    ⟨demo_clip ST_OFF 0, demo_clip ST_OFF 0, demo_clip ST_OFF 0, by decide, by decide,
      by decide⟩
  have hw := ((init_retro_snd_all_or_nothing false (fun _ => malloc_zeroed) demo_assets
    fresh_globals 16).2 g1 h).2.2.1
  rw [h, Option.map_some', hw]
  rfl

/-- C14 (counterexample): from the zero-initialized globals, an init whose first asset
loads and whose second asset is rejected returns false and leaves slot 0 ready; after
`retro_snd_cmd(0, ST_LOOP)` a call of `retro_snd_mixer_sample` on the pair (0, 0)
leaves (10, 10). -/
theorem failed_init_not_silent :
    init_retro_snd false (fun _ => malloc_zeroed) broken_assets fresh_globals 16 =
      some (false,
        ⟨[demo_clip ST_OFF 0, { idle_clip with head := WAVhead_of_bytes false stereo_wav },
          idle_clip], 0, false⟩) ∧
    (run_session false
        ⟨[demo_clip ST_OFF 0, { idle_clip with head := WAVhead_of_bytes false stereo_wav },
          idle_clip], 0, false⟩ [.cmd 0 ST_LOOP]).map
      (fun g => (retro_snd_mixer_sample false g.snd_buffer_size g.sounds 0 0).2) =
      some (10, 10) := by
  decide

/-- C14 (amended): after an `init_retro_snd` that returns false from the
zero-initialized globals, in every state reached by a sequence of `retro_snd_cmd`,
`retro_snd_mixer_batch` and `retro_snd_mixer_sample` calls, `retro_snd_mixer_batch`
leaves the batch buffer unchanged; and when no slot was loaded before the failure,
which is the case when the first asset is the one that fails, `retro_snd_mixer_sample`
leaves the left/right pair unchanged as well. -/
theorem failed_init_silence (msb : Bool) (malloc : Nat → Nat → Option (List Nat))
    (assets : snd_assets) (size : Int) (g1 g2 : snd_globals) (calls : List snd_call)
    (hinit : init_retro_snd msb malloc assets fresh_globals size = some (false, g1))
    (hplay : ∀ c ∈ calls, c.is_playback = true)
    (hrun : run_session msb g1 calls = some g2) :
    (∀ buf, (retro_snd_mixer_batch msb g2.snd_buffer_size g2.sounds buf).2 = buf) ∧
    ((∀ snd ∈ g1.sounds, snd.ready_to_play = false) →
      ∀ l r, (retro_snd_mixer_sample msb g2.snd_buffer_size g2.sounds l r).2 = (l, r)) ∧
    (∀ c, sound_load msb (malloc SND_FDCMOTOR) idle_clip assets.motor assets.motor_size =
        some (false, c) → ∀ snd ∈ g1.sounds, snd.ready_to_play = false) := by
  obtain ⟨k1, k2, k3⟩ :=
    init_retro_snd_store msb malloc assets fresh_globals g1 size false hinit
  have inv := run_session_induct msb
    (fun g => (g.sounds.length = SND_LAST ∧
        ∀ snd ∈ g.sounds, snd.ready_to_play = false →
          snd.state = ST_OFF ∧ snd.sample_pos = 0) ∧
      g.snd_buffer_size = 0 ∧
      ((∀ snd ∈ g1.sounds, snd.ready_to_play = false) →
        ∀ snd ∈ g.sounds, snd.ready_to_play = false))
    (fun c => c.is_playback = true)
    (fun g c g3 hg hc hr => by
      obtain ⟨a1, a2, a3⟩ := hg
      obtain ⟨b1, b2⟩ := playback_step_not_ready msb g g3 c a1.1 hc hr
      exact ⟨step_not_ready_off msb g g3 c a1 hr, by rw [b1]; exact a2,
        fun hq => b2 (a3 hq)⟩)
    calls g1 g2
    ⟨⟨k1, fun snd hsnd hr => ⟨(k2 snd hsnd).1 hr, (k2 snd hsnd).2.1⟩⟩, k3 rfl, fun hq => hq⟩
    hplay hrun
  obtain ⟨⟨i1, i2⟩, i3, i4⟩ := inv
  refine ⟨fun buf => ?_, fun hq l r => ?_, fun c hc => ?_⟩
  · rw [retro_snd_mixer_batch_eq_list msb _ _ buf i1, i3]
    exact mixer_batch_list_width_zero msb g2.sounds buf
  · rw [retro_snd_mixer_sample_eq_list msb _ _ l r i1,
      mixer_sample_list_all_off msb _ g2.sounds l r
        (fun snd hsnd => (i2 snd hsnd (i4 hq snd hsnd)).1)]
  · rw [init_retro_snd_eq, hc] at hinit
    simp only [Option.some.injEq, Prod.mk.injEq, true_and] at hinit
    obtain ⟨d1, _, _, _⟩ := sound_load_false _ _ _ _ _ _ hc
    rw [← hinit]
    intro snd hsnd
    simp only [List.mem_cons, List.mem_singleton, List.not_mem_nil, or_false] at hsnd
    rcases hsnd with e | e | e
    · rw [e, d1]; rfl
    · rw [e]; rfl
    · rw [e]; rfl

/-- C14 (amended) after the init with a rejected second asset: once slot 0 has been
started in loop mode, a batch call still leaves its buffer as it is. -/
theorem failed_init_silence_witness :
    (retro_snd_mixer_batch false 0
        [demo_clip ST_LOOP 0, { idle_clip with head := WAVhead_of_bytes false stereo_wav },
          idle_clip] [5, 6]).2 = [5, 6] :=
  (failed_init_silence false (fun _ => malloc_zeroed) broken_assets 16
    ⟨[demo_clip ST_OFF 0, { idle_clip with head := WAVhead_of_bytes false stereo_wav },
      idle_clip], 0, false⟩
    ⟨[demo_clip ST_LOOP 0, { idle_clip with head := WAVhead_of_bytes false stereo_wav },
      idle_clip], 0, false⟩ [.cmd 0 ST_LOOP] (by decide) (by decide) (by decide)).1 [5, 6]

/-- C15: teardown postcondition and idempotence. From every state of a store of
`SND_LAST` clips, `free_retro_snd` leaves every slot with no sample buffer,
`samples_tot` 0, cursor 0, state `ST_OFF` and not ready, and the batch width 0; a
second call changes nothing more. -/
theorem free_retro_snd_postcondition (g : snd_globals) (hstore : g.sounds.length = SND_LAST) :
    (∀ snd ∈ (free_retro_snd g).sounds,
      snd.rawsamples = none ∧ snd.samples_tot = 0 ∧ snd.sample_pos = 0 ∧
        snd.state = ST_OFF ∧ snd.ready_to_play = false) ∧
    (free_retro_snd g).sounds.length = SND_LAST ∧
    (free_retro_snd g).snd_buffer_size = 0 ∧
    free_retro_snd (free_retro_snd g) = free_retro_snd g := by
  obtain ⟨sounds, w, p⟩ := g
  match sounds, hstore with
  | [a, b, c], _ =>
    refine ⟨?_, rfl, rfl, rfl⟩
    intro snd hsnd
    have e : (free_retro_snd ⟨[a, b, c], w, p⟩).sounds =
        [sound_free a, sound_free b, sound_free c] := rfl
    rw [e] at hsnd
    simp only [List.mem_cons, List.mem_singleton, List.not_mem_nil, or_false] at hsnd
    rcases hsnd with hh | hh | hh <;> rw [hh] <;> exact ⟨rfl, rfl, rfl, rfl, rfl⟩

/-- C15 at a store with a playing clip, a partly loaded slot and an idle slot. -/
theorem free_retro_snd_postcondition_witness :
    free_retro_snd (free_retro_snd
        ⟨[demo_clip ST_LOOP 2, { idle_clip with samples_tot := 3 }, idle_clip], 4, true⟩) =
      free_retro_snd
        ⟨[demo_clip ST_LOOP 2, { idle_clip with samples_tot := 3 }, idle_clip], 4, true⟩ :=
  (free_retro_snd_postcondition
    ⟨[demo_clip ST_LOOP 2, { idle_clip with samples_tot := 3 }, idle_clip], 4, true⟩
    (by decide)).2.2.2

/-- C16 (counterexample): after a successful init with three clips of 3 samples and an
output buffer of 16 bytes (batch width 4), starting slot 0 in loop mode and calling
`retro_snd_mixer_batch` once leaves that clip with cursor 4 and `samples_tot` 3. -/
theorem cursor_exceeds_short_looped_clip :
    ((init_retro_snd false (fun _ => malloc_zeroed) demo_assets fresh_globals 16).bind
      fun res => (run_session false res.2 [.cmd 0 ST_LOOP, .batch [0, 0, 0, 0, 0, 0, 0, 0]]).map
        fun g => (res.1, g.snd_buffer_size,
          g.sounds.map fun s => (s.sample_pos, s.samples_tot))) =
      some (true, 4, [(4, 3), (0, 3), (0, 3)]) ∧
    ¬ (4 ≤ 3) := by
  decide

/-- C16 (amended): cursor range invariant under the width precondition. After a
successful `init_retro_snd` that leaves a batch width `W` with `1 ≤ W` and
`W ≤ samples_tot` for every clip, every state reached by a sequence of
`retro_snd_cmd`, `retro_snd_mixer_batch` and `retro_snd_mixer_sample` calls has
`sample_pos ≤ samples_tot` for every clip. -/
theorem cursor_in_range (msb : Bool) (malloc : Nat → Nat → Option (List Nat))
    (assets : snd_assets) (g0 g1 g2 : snd_globals) (size : Int) (W : Nat)
    (calls : List snd_call)
    (hinit : init_retro_snd msb malloc assets g0 size = some (true, g1))
    (hW : g1.snd_buffer_size = (W : Int)) (hW1 : 1 ≤ W)
    (hW2 : ∀ snd ∈ g1.sounds, W ≤ snd.samples_tot)
    (hplay : ∀ c ∈ calls, c.is_playback = true)
    (hrun : run_session msb g1 calls = some g2) :
    ∀ snd ∈ g2.sounds, snd.sample_pos ≤ snd.samples_tot := by
  obtain ⟨hlen, hall, _⟩ := init_retro_snd_store msb malloc assets g0 g1 size true hinit
  have h1 : g1.sounds.length = SND_LAST ∧ g1.snd_buffer_size = (W : Int) ∧
      ∀ snd ∈ g1.sounds, W ≤ snd.samples_tot ∧ snd.samples_tot < 2147483648 ∧
        snd.sample_pos ≤ snd.samples_tot := by
    refine ⟨hlen, hW, fun snd hsnd => ⟨hW2 snd hsnd, (hall snd hsnd).2.2, ?_⟩⟩
    rw [(hall snd hsnd).2.1]
    exact Nat.zero_le _
  have h2 := run_session_induct msb _ (fun c => c.is_playback = true)
    (fun g c g3 hg hc hr => playback_step_cursor msb W hW1 g g3 c hg hc hr)
    calls g1 g2 h1 hplay hrun
  exact fun snd hsnd => (h2.2.2 snd hsnd).2.2

/-- C16 (amended) after an init with three clips of 3 samples and batch width 3: slot 0
looped and slot 1 played once, driven through both mixers, end with cursors 1 and 0. -/
theorem cursor_in_range_witness :
    run_session false ⟨[demo_clip ST_OFF 0, demo_clip ST_OFF 0, demo_clip ST_OFF 0], 3, true⟩
        [.cmd 0 ST_LOOP, .cmd 1 ST_ON, .batch [0, 0, 0, 0, 0, 0], .sample 0 0, .sample 0 0] =
      some ⟨[demo_clip ST_LOOP 1, demo_clip ST_OFF 0, demo_clip ST_OFF 0], 3, true⟩ ∧
    (demo_clip ST_LOOP 1).sample_pos ≤ (demo_clip ST_LOOP 1).samples_tot :=
  ⟨by decide,
    cursor_in_range false (fun _ => malloc_zeroed) demo_assets fresh_globals
      ⟨[demo_clip ST_OFF 0, demo_clip ST_OFF 0, demo_clip ST_OFF 0], 3, true⟩
      ⟨[demo_clip ST_LOOP 1, demo_clip ST_OFF 0, demo_clip ST_OFF 0], 3, true⟩ 12 3
      [.cmd 0 ST_LOOP, .cmd 1 ST_ON, .batch [0, 0, 0, 0, 0, 0], .sample 0 0, .sample 0 0]
      (by decide) rfl (by decide) (by decide) (by decide) (by decide)
      (demo_clip ST_LOOP 1) (by decide)⟩

/-- C17: a clip that is not ready is never played. In every state reached from the
zero-initialized globals by a sequence of `init_retro_snd`, `free_retro_snd`,
`retro_snd_cmd`, `retro_snd_mixer_batch` and `retro_snd_mixer_sample` calls, the store
has `SND_LAST` clips and every clip that is not ready is in state `ST_OFF` with cursor
0; both mixers leave such a clip as it is, and what they write to their outputs does
not depend on its sample data. -/
theorem non_ready_never_played (msb : Bool) (calls : List snd_call) (g : snd_globals)
    (hrun : run_session msb fresh_globals calls = some g) :
    g.sounds.length = SND_LAST ∧
    ∀ n snd, g.sounds.get? n = some snd → snd.ready_to_play = false →
      snd.state = ST_OFF ∧ snd.sample_pos = 0 ∧
      (∀ buf raw1,
        (retro_snd_mixer_batch msb g.snd_buffer_size g.sounds buf).1.get? n = some snd ∧
        (retro_snd_mixer_batch msb g.snd_buffer_size
            (g.sounds.set n { snd with rawsamples := raw1 }) buf).2 =
          (retro_snd_mixer_batch msb g.snd_buffer_size g.sounds buf).2) ∧
      (∀ l r raw1,
        (retro_snd_mixer_sample msb g.snd_buffer_size g.sounds l r).1.get? n = some snd ∧
        (retro_snd_mixer_sample msb g.snd_buffer_size
            (g.sounds.set n { snd with rawsamples := raw1 }) l r).2 =
          (retro_snd_mixer_sample msb g.snd_buffer_size g.sounds l r).2) := by
  have h0 : fresh_globals.sounds.length = SND_LAST ∧
      ∀ snd ∈ fresh_globals.sounds, snd.ready_to_play = false →
        snd.state = ST_OFF ∧ snd.sample_pos = 0 := by
    refine ⟨rfl, fun snd hsnd _ => ?_⟩
    have e : snd = idle_clip := List.eq_of_mem_replicate hsnd
    rw [e]
    exact ⟨rfl, rfl⟩
  obtain ⟨hlen, hall⟩ := run_session_induct msb _ (fun _ => True)
    (fun g1 c g2 hg _ hr => step_not_ready_off msb g1 g2 c hg hr)
    calls fresh_globals g h0 (fun _ _ => trivial) hrun
  refine ⟨hlen, fun n snd hn hnr => ?_⟩
  obtain ⟨hoff, hpos⟩ := hall snd (List.mem_iff_get?.2 ⟨n, hn⟩) hnr
  refine ⟨hoff, hpos, fun buf raw1 => ?_, fun l r raw1 => ?_⟩
  · rw [retro_snd_mixer_batch_eq_list msb _ _ buf hlen,
      retro_snd_mixer_batch_eq_list msb _ _ buf (by rw [List.length_set]; exact hlen)]
    exact mixer_batch_list_skip_off msb _ g.sounds buf n snd _ hn hoff hoff
  · rw [retro_snd_mixer_sample_eq_list msb _ _ l r hlen,
      retro_snd_mixer_sample_eq_list msb _ _ l r (by rw [List.length_set]; exact hlen)]
    exact mixer_sample_list_skip_off msb _ g.sounds l r n snd _ hn hoff hoff

/-- C17 after a failed init (second asset rejected), a command for the rejected slot
and two mixer calls: slot 1 is not ready, in state `ST_OFF` with cursor 0. -/
theorem non_ready_never_played_witness :
    ((run_session false fresh_globals
        [.init (fun _ => malloc_zeroed) broken_assets 16, .cmd 1 ST_LOOP,
          .batch [0, 0], .sample 0 0]).bind fun g => g.sounds.get? 1).map
      (fun s => (s.ready_to_play, s.state, s.sample_pos)) = some (false, ST_OFF, 0) := by
  have hrun : run_session false fresh_globals
      [.init (fun _ => malloc_zeroed) broken_assets 16, .cmd 1 ST_LOOP,
        .batch [0, 0], .sample 0 0] =
      some ⟨[demo_clip ST_OFF 0, { idle_clip with head := WAVhead_of_bytes false stereo_wav },
        idle_clip], 0, false⟩ := by decide
  obtain ⟨h1, h2, _⟩ := (non_ready_never_played false _ _ hrun).2 1
    { idle_clip with head := WAVhead_of_bytes false stereo_wav } rfl rfl
  rw [hrun]
  simp only [Option.some_bind, List.get?, Option.map_some', h1, h2]
  rfl

/-- C18: playback operations do not alter loaded clip data. For every store of
`SND_LAST` clips, a call of `retro_snd_cmd` (which completes for every slot index that
is not negative), of `retro_snd_mixer_batch` or of `retro_snd_mixer_sample` leaves the
header, the sample data, `samples_tot`, `sample_rate`, `bytes_per_sample` and the ready
flag of every clip as they were: only `state` and `sample_pos` may differ. -/
theorem playback_keeps_clip_data (msb : Bool) (W : Int) (sounds : List retro_guisnd_t)
    (hstore : sounds.length = SND_LAST) :
    (∀ t st sounds1, retro_snd_cmd sounds t st = some sounds1 →
      sounds1.map clip_data = sounds.map clip_data) ∧
    (∀ t st, 0 ≤ t → ∃ sounds1, retro_snd_cmd sounds t st = some sounds1) ∧
    (∀ buf, (retro_snd_mixer_batch msb W sounds buf).1.map clip_data =
      sounds.map clip_data) ∧
    (∀ l r, (retro_snd_mixer_sample msb W sounds l r).1.map clip_data =
      sounds.map clip_data) := by
  refine ⟨fun t st sounds1 h => ?_, fun t st h0 => retro_snd_cmd_isSome sounds t st hstore h0,
    fun buf => ?_, fun l r => ?_⟩
  · rcases retro_snd_cmd_some sounds sounds1 t st h with e | ⟨n, snd, hn, _, e⟩
    · rw [e]
    · rw [e]
      exact map_set_same clip_data sounds n _ snd hn rfl
  · rw [retro_snd_mixer_batch_eq_list msb W sounds buf hstore]
    exact map_clip_data_mixer_batch_list msb W sounds buf
  · rw [retro_snd_mixer_sample_eq_list msb W sounds l r hstore]
    exact map_clip_data_mixer_sample_list msb W sounds l r

/-- C18 at a store with a looped and a one-shot clip and a batch of width 3. -/
theorem playback_keeps_clip_data_witness :
    (retro_snd_mixer_batch false 3 [demo_clip ST_LOOP 1, idle_clip, demo_clip ST_ON 0]
        [0, 0, 0, 0, 0, 0]).1.map clip_data =
      [clip_data (demo_clip ST_OFF 0), clip_data idle_clip, clip_data (demo_clip ST_OFF 0)] :=
  (playback_keeps_clip_data false 3 [demo_clip ST_LOOP 1, idle_clip, demo_clip ST_ON 0]
    (by decide)).2.2.1 [0, 0, 0, 0, 0, 0]

/-- C19: source reads stay in bounds under the width precondition. For a clip (active
or not) with cursor at most `samples_tot` (below `2^31`) and a batch width `W` with
`1 ≤ W ≤ samples_tot`, every offset at which `mix_audio_batch` or `mix_audio_sample`
reads a sample is the offset `2 * j` of a sample index `j < samples_tot`, so both of its
bytes lie in the first `2 * samples_tot` bytes of the block and, in a block of at least
that length, `byte_at` never falls back on its default; after either call the cursor is
at most `samples_tot`, which the call does not change. -/
theorem source_reads_in_bounds (msb : Bool) (W : Nat) (snd : retro_guisnd_t)
    (out : List Int) (l r : Int)
    (hpos : snd.sample_pos ≤ snd.samples_tot)
    (hW1 : 1 ≤ W) (hW2 : W ≤ snd.samples_tot) (hN : snd.samples_tot < 2147483648) :
    (∀ off ∈ mix_audio_batch_reads (W : Int) snd,
      off % 2 = 0 ∧ off / 2 < snd.samples_tot ∧ off + 1 < 2 * snd.samples_tot) ∧
    (∀ off ∈ mix_audio_sample_reads (W : Int) snd,
      off % 2 = 0 ∧ off / 2 < snd.samples_tot ∧ off + 1 < 2 * snd.samples_tot) ∧
    (2 * snd.samples_tot ≤ (raw_bytes snd).length →
      ∀ off ∈ mix_audio_batch_reads (W : Int) snd ++ mix_audio_sample_reads (W : Int) snd,
        off + 1 < (raw_bytes snd).length) ∧
    (mix_audio_batch msb (W : Int) out snd).1.samples_tot = snd.samples_tot ∧
    (mix_audio_batch msb (W : Int) out snd).1.sample_pos ≤ snd.samples_tot ∧
    (mix_audio_sample msb (W : Int) snd l r).1.samples_tot = snd.samples_tot ∧
    (mix_audio_sample msb (W : Int) snd l r).1.sample_pos ≤ snd.samples_tot := by
  have hW : to_unsigned (W : Int) = W := to_unsigned_natCast (by omega)
  have h1 : (snd.sample_pos + W) % UINT_MOD = snd.sample_pos + W :=
    Nat.mod_eq_of_lt (by unfold UINT_MOD; omega)
  have h2 : (AUDIO_BYTES * snd.sample_pos) % UINT_MOD = 2 * snd.sample_pos :=
    Nat.mod_eq_of_lt (by unfold UINT_MOD AUDIO_BYTES; omega)
  have h3 : (AUDIO_BYTES * 0) % UINT_MOD = 0 := by decide
  have hs : batch_start W snd + W ≤ snd.samples_tot := by
    unfold batch_start; split_ifs <;> omega
  have hb : ∀ off ∈ mix_audio_batch_reads (W : Int) snd,
      off % 2 = 0 ∧ off / 2 < snd.samples_tot ∧ off + 1 < 2 * snd.samples_tot := by
    intro off hoff
    unfold mix_audio_batch_reads at hoff
    rw [hW, h1, h2, h3] at hoff
    split_ifs at hoff with ha hb
    · cases hoff
    · obtain ⟨k, hk, e⟩ := (mem_mix_loop_reads _ _ _).1 hoff
      omega
    · obtain ⟨k, hk, e⟩ := (mem_mix_loop_reads _ _ _).1 hoff
      omega
  have hsm : ∀ off ∈ mix_audio_sample_reads (W : Int) snd,
      off % 2 = 0 ∧ off / 2 < snd.samples_tot ∧ off + 1 < 2 * snd.samples_tot := by
    intro off hoff
    unfold mix_audio_sample_reads at hoff
    rw [hW, h1, h2, h3] at hoff
    split_ifs at hoff with ha hb
    · cases hoff
    · rw [List.mem_singleton] at hoff
      omega
    · rw [List.mem_singleton] at hoff
      omega
  refine ⟨hb, hsm, fun hraw off hoff => ?_, ?_, ?_, ?_, ?_⟩
  · rcases List.mem_append.1 hoff with h | h
    · have := (hb off h).2.2
      omega
    · have := (hsm off h).2.2
      omega
  · rw [mix_audio_batch_eq msb W out snd (by omega) (by omega)]
    split_ifs <;> rfl
  · rw [mix_audio_batch_eq msb W out snd (by omega) (by omega)]
    split_ifs
    · exact Nat.zero_le _
    · exact hs
  · rw [mix_audio_sample_eq msb W snd l r (by omega) (by omega)]
    split_ifs <;> rfl
  · rw [mix_audio_sample_eq msb W snd l r (by omega) (by omega)]
    split_ifs
    · exact Nat.zero_le _
    · show batch_start W snd + 1 ≤ snd.samples_tot
      omega

/-- C19 at the clip 10, 20, 30 with width 3, looped, from cursor 1: the batch rewinds
and reads the offsets 0, 2, 4. -/
theorem source_reads_in_bounds_witness :
    mix_audio_batch_reads 3 (demo_clip ST_LOOP 1) = [0, 2, 4] ∧
    (mix_audio_batch false 3 [0, 0, 0, 0, 0, 0] (demo_clip ST_LOOP 1)).1.sample_pos ≤ 3 :=
  ⟨by decide,
    (source_reads_in_bounds false 3 (demo_clip ST_LOOP 1) [0, 0, 0, 0, 0, 0] 0 0 (by decide)
      (by decide) (by decide) (by decide)).2.2.2.2.1⟩

/-- C20: exact stopping time of a one-shot clip in batch mode. In a store whose only
active clip is a one-shot clip with `samples_tot = N` and cursor 0, for a width
`W ≥ 1`: each of the first `N / W` calls of `retro_snd_mixer_batch` adds the next `W`
source samples (indices `k * W + i`, all below `N - N % W`) to both channels and leaves
the clip in state `ST_ON` with its cursor moved on by `W`; call `N / W + 1` leaves the
buffer as it is and stops the clip (state `ST_OFF`, cursor 0); later calls change
nothing. -/
theorem one_shot_batch_stopping_time (msb : Bool) (N W : Nat)
    (pre post : List retro_guisnd_t) (snd : retro_guisnd_t) (out : List Int)
    (hstore : (pre ++ snd :: post).length = SND_LAST)
    (hpre : ∀ s ∈ pre, s.state = ST_OFF) (hpost : ∀ s ∈ post, s.state = ST_OFF)
    (hst : snd.state = ST_ON) (hN : snd.samples_tot = N) (hpos : snd.sample_pos = 0)
    (hW1 : 1 ≤ W) (hW : W < 2147483648) (hN2 : N < 2147483648)
    (hlen : out.length = 2 * W) :
    (∀ k, k < N / W →
      (batch_calls msb (W : Int) (k + 1) (pre ++ snd :: post, out)).1 =
        pre ++ { snd with sample_pos := (k + 1) * W, state := ST_ON } :: post ∧
      ∀ i, i < W →
        k * W + i < N - N % W ∧
        (batch_calls msb (W : Int) (k + 1) (pre ++ snd :: post, out)).2.getD (2 * i) 0 =
          wrap16 ((batch_calls msb (W : Int) k (pre ++ snd :: post, out)).2.getD (2 * i) 0
            + sample_at msb snd (k * W + i)) ∧
        (batch_calls msb (W : Int) (k + 1) (pre ++ snd :: post, out)).2.getD (2 * i + 1) 0 =
          wrap16 ((batch_calls msb (W : Int) k (pre ++ snd :: post, out)).2.getD (2 * i + 1) 0
            + sample_at msb snd (k * W + i))) ∧
    batch_calls msb (W : Int) (N / W + 1) (pre ++ snd :: post, out) =
      (pre ++ { snd with state := ST_OFF, sample_pos := 0 } :: post,
        (batch_calls msb (W : Int) (N / W) (pre ++ snd :: post, out)).2) ∧
    (∀ m, N / W + 1 ≤ m →
      batch_calls msb (W : Int) m (pre ++ snd :: post, out) =
        batch_calls msb (W : Int) (N / W + 1) (pre ++ snd :: post, out)) := by
  have hq2 : N / W * W ≤ N := Nat.div_mul_le_self N W
  have hq3 : N < N / W * W + W := Nat.lt_div_mul_add (by omega)
  have hmod : N / W * W = N - N % W := by
    have := Nat.div_add_mod N W
    rw [Nat.mul_comm] at this
    omega
  have hstop : (batch_tick msb (W : Int))^[N / W + 1] (snd, out) =
      ({ snd with state := ST_OFF, sample_pos := 0 },
        ((batch_tick msb (W : Int))^[N / W] (snd, out)).2) := by
    obtain ⟨i1, i2⟩ :=
      iterate_batch_tick_one_shot msb N W snd out hst hN hpos hW hN2 (N / W) (le_refl _)
    rw [Function.iterate_succ_apply']
    generalize (batch_tick msb (W : Int))^[N / W] (snd, out) = st at *
    have e1 : st.1.sample_pos = N / W * W := by rw [i1]
    have e2 : st.1.samples_tot = N := by rw [i1]; exact hN
    have e3 : st.1.state = ST_ON := by rw [i1]; exact hst
    unfold batch_tick
    rw [if_pos (by rw [e3]; decide), mix_audio_batch_eq msb W st.2 st.1 (by omega) (by omega),
      if_pos ⟨by omega, e3⟩, i1]
    rfl
  refine ⟨fun k hk => ?_, ?_, fun m hm => ?_⟩
  · rw [batch_calls_single msb W pre post snd out hstore hpre hpost (k + 1),
      batch_calls_single msb W pre post snd out hstore hpre hpost k]
    obtain ⟨j1, _⟩ :=
      iterate_batch_tick_one_shot msb N W snd out hst hN hpos hW hN2 (k + 1) (by omega)
    obtain ⟨i1, i2⟩ :=
      iterate_batch_tick_one_shot msb N W snd out hst hN hpos hW hN2 k (by omega)
    have hq : (k + 1) * W ≤ N / W * W := Nat.mul_le_mul_right W (by omega)
    rw [Nat.add_mul, Nat.one_mul] at hq
    refine ⟨by simp only [j1, hst], fun i hi => ⟨by omega, ?_⟩⟩
    simp only []
    rw [Function.iterate_succ_apply']
    generalize (batch_tick msb (W : Int))^[k] (snd, out) = st at *
    have e1 : st.1.sample_pos = k * W := by rw [i1]
    have e2 : st.1.samples_tot = N := by rw [i1]; exact hN
    have e3 : st.1.state = ST_ON := by rw [i1]; exact hst
    have hact : st.1.state ≠ ST_OFF := by rw [e3]; decide
    have hm : batch_mixed W st.1 := ⟨hact, fun hh => by omega⟩
    have hs : batch_start W st.1 = k * W := by
      unfold batch_start; rw [if_neg (by omega), e1]
    have hsa : ∀ n, sample_at msb st.1 n = sample_at msb snd n := by
      intro n; rw [i1]; rfl
    unfold batch_tick
    rw [if_pos hact]
    constructor
    · rw [getD_mix_audio_batch msb W st.2 st.1 (by omega) (by omega) (by omega) hact (2 * i)
        (by omega), if_pos hm, hs, hsa]
      have h2 : 2 * i / 2 = i := by omega
      rw [h2]
    · rw [getD_mix_audio_batch msb W st.2 st.1 (by omega) (by omega) (by omega) hact
        (2 * i + 1) (by omega), if_pos hm, hs, hsa]
      have h2 : (2 * i + 1) / 2 = i := by omega
      rw [h2]
  · rw [batch_calls_single msb W pre post snd out hstore hpre hpost (N / W + 1),
      batch_calls_single msb W pre post snd out hstore hpre hpost (N / W), hstop]
  · rw [batch_calls_single msb W pre post snd out hstore hpre hpost m,
      batch_calls_single msb W pre post snd out hstore hpre hpost (N / W + 1)]
    obtain ⟨d, rfl⟩ : ∃ d, m = d + (N / W + 1) := ⟨m - (N / W + 1), by omega⟩
    rw [Function.iterate_add_apply, hstop, iterate_batch_tick_off msb W _ rfl d]

/-- C20 at a clip of three samples with width 2: one batch is mixed, the second call
stops the clip and the third sample is never added. -/
theorem one_shot_batch_stopping_time_witness :
    batch_calls false 2 2 ([idle_clip, demo_clip ST_ON 0, idle_clip], [0, 0, 0, 0]) =
      ([idle_clip, demo_clip ST_OFF 0, idle_clip],
        (batch_calls false 2 1 ([idle_clip, demo_clip ST_ON 0, idle_clip], [0, 0, 0, 0])).2) :=
  (one_shot_batch_stopping_time false 3 2 [idle_clip] [idle_clip] (demo_clip ST_ON 0)
    [0, 0, 0, 0] (by decide) (by decide) (by decide) rfl rfl rfl (by decide) (by decide)
    (by decide) (by decide)).2.1

end RetroSnd
